import Mathlib

/-!
Verification development for the one-way-availability-bot repository.

The development shallowly embeds the core of the bot:
* calendar arithmetic modelling the JavaScript `Date` functions the code
  relies on (the process-local timezone is modelled as UTC, the deployed
  configuration, so `new Date(y, m, d)` and `Date.UTC(y, m, d)` coincide
  and every local midnight is a whole multiple of 86400000 ms);
* `src/parser.ts` (`isValidDateFormat`, `determineYearForDate`,
  `isDateWithinRange`, `parseAvailabilityEntry`);
* `src/airport-timezone.ts` (`getTimezone`, `getMidnightTimestamp`, with
  the geo-tz `find` call and the `toLocaleString` offset computation
  abstracted as oracles carried by the service value);
* `src/database.ts` (`DatabaseWrapper` over the SQLite `entries` table,
  including the partial unique index `idx_entries_unique_active`);
* the storage layer (`AvailabilityStorage`: `cleanupExpiredEntries`,
  `getAllEntries`, `getUserEntries`);
* the guard chain of `OneWayAvailabilityBot.handleMessage` up to command
  dispatch.
-/

namespace Obcmap

/-! ### Calendar arithmetic -/

/-- Days since 1970-01-01 of the first day of month `m` (1-based) of year
`y`, by the standard civil-from-days algorithm. -/
def daysFromCivilFirst (y m : Int) : Int :=
  let y2 := if m ≤ 2 then y - 1 else y
  let era := Int.fdiv y2 400
  let yoe := y2 - era * 400
  let mp := if m ≤ 2 then m + 9 else m - 3
  let doy := Int.fdiv (153 * mp + 2) 5
  let doe := yoe * 365 + Int.fdiv yoe 4 - Int.fdiv yoe 100 + doy
  era * 146097 + doe - 719468

/-- Days since 1970-01-01 of the calendar day `(y, m, d)`.  The day
component may exceed the month length; like the JavaScript `Date`
constructor, overflow rolls into the following months. -/
def civilDays (y m d : Int) : Int :=
  daysFromCivilFirst y m + (d - 1)

/-- Epoch milliseconds of midnight of `(y, m, d)`.  In the UTC model of
the process timezone this is both `new Date(y, m - 1, d).getTime()` and
`Date.UTC(y, m - 1, d)`. -/
def jsDateMs (y m d : Int) : Int :=
  86400000 * civilDays y m d

/-- Calendar day `(year, month, day)` of a day count since 1970-01-01
(inverse of `civilDays`, standard civil-from-days algorithm). -/
def civilFromDays (z0 : Int) : Int × Int × Int :=
  let z := z0 + 719468
  let era := Int.fdiv z 146097
  let doe := z - era * 146097
  let yoe := Int.fdiv (doe - Int.fdiv doe 1460 + Int.fdiv doe 36524 - Int.fdiv doe 146096) 365
  let y := yoe + era * 400
  let doy := doe - (365 * yoe + Int.fdiv yoe 4 - Int.fdiv yoe 100)
  let mp := Int.fdiv (5 * doy + 2) 153
  let d := doy - Int.fdiv (153 * mp + 2) 5 + 1
  let m := if mp < 10 then mp + 3 else mp - 9
  (if m ≤ 2 then y + 1 else y, m, d)

/-! ### String helpers -/

/-- Numeric value of a list of decimal digit characters; models
`parseInt(s, 10)` on its use sites, which only ever receive all-digit
strings (regex captures and zero-padded numbers). -/
def digitsToInt (l : List Char) : Int :=
  l.foldl (fun a c => 10 * a + (Int.ofNat c.toNat - 48)) 0

/-- Models `n.toString().padStart(2, '0')` for the month/day numbers
(always in `0..99`) the code pads. -/
def pad2 (n : Int) : String :=
  if n < 10 then "0" ++ toString n else toString n

/-- The `YYYY-MM-DD` string built by `parseAvailabilityEntry`. -/
def mkFullDate (year month day : Int) : String :=
  toString year ++ "-" ++ pad2 month ++ "-" ++ pad2 day

/-- The `MMDD` string rebuilt by `parseAvailabilityEntry` for the expiry
computation. -/
def mkMMDD (month day : Int) : String :=
  pad2 month ++ pad2 day

/-- Whitespace characters matched by the regex class `\s` (ASCII range;
all inputs of interest are ASCII). -/
def isJsSpace (c : Char) : Bool :=
  c = ' ' || c = '\t' || c = '\n' || c = '\r' || c = '\x0b' || c = '\x0c'

/-- Models the JavaScript `String.prototype.trim`: strip whitespace
from both ends. -/
def jsTrim (s : String) : String :=
  String.mk (((s.toList.dropWhile isJsSpace).reverse.dropWhile isJsSpace).reverse)

/-- Models `String.prototype.toLowerCase` and SQLite `LOWER` on the
ASCII inputs the bot handles. -/
def jsToLower (s : String) : String :=
  String.mk (s.toList.map Char.toLower)

/-- Models `String.prototype.toUpperCase` on the ASCII inputs the bot
handles. -/
def jsToUpper (s : String) : String :=
  String.mk (s.toList.map Char.toUpper)

/-- Models `String.prototype.startsWith`. -/
def jsStartsWith (s pre : String) : Bool :=
  pre.toList.isPrefixOf s.toList

/-- Strict codepoint-lexicographic comparison of character lists
(SQLite BINARY collation and `localeCompare` agree with it on the
ASCII strings the bot stores). -/
def charListLT : List Char → List Char → Bool
  | [], [] => false
  | [], _ :: _ => true
  | _ :: _, [] => false
  | a :: as, b :: bs => if a < b then true else if b < a then false else charListLT as bs

/-- Strict codepoint-lexicographic comparison of strings. -/
def strLT (a b : String) : Bool :=
  charListLT a.toList b.toList

/-- Reflexive codepoint-lexicographic comparison of strings. -/
def strLE (a b : String) : Bool :=
  !(strLT b a)

/-- Take exactly `n` characters all satisfying `p`, returning them and
the remainder. -/
def takeCount (p : Char → Bool) : Nat → List Char → Option (List Char × List Char)
  | 0, l => some ([], l)
  | _ + 1, [] => none
  | n + 1, c :: rest =>
    if p c then (takeCount p n rest).map (fun x => (c :: x.1, x.2)) else none

/-- Matcher for the first accepted shape,
regex `^(\d\x7b4\x7d)\s+([a-z]\x7b3\x7d)\s+([a-z]\x7b3\x7d)$`. -/
def matchPattern1 (l : List Char) : Option (List Char × List Char × List Char) :=
  match takeCount Char.isDigit 4 l with
  | none => none
  | some (ds, r1) =>
    let s1 := r1.span isJsSpace
    if s1.1 = [] then none else
    match takeCount Char.isLower 3 s1.2 with
    | none => none
    | some (dep, r2) =>
      let s2 := r2.span isJsSpace
      if s2.1 = [] then none else
      match takeCount Char.isLower 3 s2.2 with
      | none => none
      | some (arr, r3) => if r3 = [] then some (ds, dep, arr) else none

/-- Matcher for the second accepted shape,
regex `^(\d\x7b4\x7d)\s+([a-z]\x7b3\x7d)\s*\/\s*([a-z]\x7b3\x7d)$`. -/
def matchPattern2 (l : List Char) : Option (List Char × List Char × List Char) :=
  match takeCount Char.isDigit 4 l with
  | none => none
  | some (ds, r1) =>
    let s1 := r1.span isJsSpace
    if s1.1 = [] then none else
    match takeCount Char.isLower 3 s1.2 with
    | none => none
    | some (dep, r2) =>
      let s2 := r2.span isJsSpace
      match s2.2 with
      | [] => none
      | c :: r3 =>
        if c = '/' then
          let s3 := r3.span isJsSpace
          match takeCount Char.isLower 3 s3.2 with
          | none => none
          | some (arr, r4) => if r4 = [] then some (ds, dep, arr) else none
        else none

/-- Matcher for the third accepted shape,
regex `^(\d\x7b4\x7d)\s+([a-z]\x7b3\x7d)-([a-z]\x7b3\x7d)$`. -/
def matchPattern3 (l : List Char) : Option (List Char × List Char × List Char) :=
  match takeCount Char.isDigit 4 l with
  | none => none
  | some (ds, r1) =>
    let s1 := r1.span isJsSpace
    if s1.1 = [] then none else
    match takeCount Char.isLower 3 s1.2 with
    | none => none
    | some (dep, r2) =>
      match r2 with
      | [] => none
      | c :: r3 =>
        if c = '-' then
          match takeCount Char.isLower 3 r3 with
          | none => none
          | some (arr, r4) => if r4 = [] then some (ds, dep, arr) else none
        else none

/-- The pattern loop of `parseAvailabilityEntry`: try the three accepted
separator shapes in order, first match wins. -/
def tryPatterns (l : List Char) : Option (List Char × List Char × List Char) :=
  (matchPattern1 l).orElse fun _ => (matchPattern2 l).orElse fun _ => matchPattern3 l

/-! ### Airport timezone service (`src/airport-timezone.ts`) -/

/-- One entry of the preloaded airport table.  The coordinates are only
ever forwarded to the geo lookup, so their numeric type is abstracted to
`Int`. -/
structure Airport where
  iataCode : String
  latitude : Int
  longitude : Int
  name : String
deriving Repr, DecidableEq

/-- The timezone service.  `airports` models the `Map` built by
`loadAirports` (an empty list models a missing or malformed CSV).
`geoFind` abstracts the geo-tz `find` call (`none` models a thrown
error), and `tzOffsetMs` abstracts the `toLocaleString`-based offset
(local minus UTC, in milliseconds) computed for a real IANA zone at a
given instant. -/
structure AirportTimezoneService where
  airports : List (String × Airport)
  geoFind : Int → Int → Option (List String)
  tzOffsetMs : String → Int → Int

/-- `AirportTimezoneService.getTimezone`: table lookup with the
`Etc/UTC-12` fallback for unknown codes, a failing geo lookup, or an
empty timezone list.  Total: no branch throws. -/
def AirportTimezoneService.getTimezone (svc : AirportTimezoneService)
    (airportCode : String) : String :=
  match svc.airports.lookup (jsToUpper airportCode) with
  | none => "Etc/UTC-12"
  | some airport =>
    match svc.geoFind airport.latitude airport.longitude with
    | none => "Etc/UTC-12"
    | some timezones =>
      match timezones with
      | [] => "Etc/UTC-12"
      | tz :: _ => tz

/-- `AirportTimezoneService.getMidnightTimestamp`.  `dateStr` is `MMDD`;
`year = none` models the argument being omitted, and (as with the
JavaScript falsiness test `if (!year)`) a supplied year `0` also falls
back to the current year of `nowMs`.  The `Etc/UTC-12` fallback branch
computes the instant directly; the real-zone branch subtracts the
oracle's offset from UTC midnight of the next day. -/
def AirportTimezoneService.getMidnightTimestamp (svc : AirportTimezoneService)
    (airportCode dateStr : String) (year : Option Int) (nowMs : Int) : Int :=
  let timezone := svc.getTimezone airportCode
  let month := digitsToInt (dateStr.toList.take 2)
  let day := digitsToInt ((dateStr.toList.drop 2).take 2)
  let y := match year with
    | none => (civilFromDays (Int.fdiv nowMs 86400000)).1
    | some y0 => if y0 = 0 then (civilFromDays (Int.fdiv nowMs 86400000)).1 else y0
  if timezone = "Etc/UTC-12" then
    jsDateMs y month (day + 1) + 12 * 3600000
  else
    let nextDay := jsDateMs y month (day + 1)
    nextDay - svc.tzOffsetMs timezone nextDay

/-! ### Parser (`src/parser.ts`) -/

/-- `isValidDateFormat`: month and day ranges of the `MMDD` capture. -/
def isValidDateFormat (ds : List Char) : Bool :=
  let month := digitsToInt (ds.take 2)
  let day := digitsToInt ((ds.drop 2).take 2)
  decide (1 ≤ month ∧ month ≤ 12 ∧ 1 ≤ day ∧ day ≤ 31)

/-- `determineYearForDate`: the year-disambiguation heuristic for a bare
`MMDD`.  Day differences are exact integers in the fixed-offset model,
matching the float day counts of the source. -/
def determineYearForDate (month day : Int) (nowMs : Int) : Int :=
  let today := civilFromDays (Int.fdiv nowMs 86400000)
  let currentYear := today.1
  let currentMonth := today.2.1
  let todayDays := civilDays today.1 today.2.1 today.2.2
  let thisYearDiff := civilDays currentYear month day - todayDays
  let lastYearDiff := civilDays (currentYear - 1) month day - todayDays
  if currentMonth ≤ 2 ∧ month = 12 ∧ |lastYearDiff| < |thisYearDiff| then
    currentYear - 1
  else if 11 ≤ currentMonth ∧ month ≤ 2 ∧ |thisYearDiff + 365| < |thisYearDiff| then
    currentYear + 1
  else if |thisYearDiff| ≤ 15 then
    currentYear
  else if thisYearDiff < -15 then
    currentYear + 1
  else
    currentYear

/-- `isDateWithinRange`: the resolved date must lie between 2 days in
the past and 8 days in the future of `nowMs`, both ends inclusive (the
source compares float day counts; multiplying through by 86400000 gives
the equivalent integer comparison). -/
def isDateWithinRange (ds : List Char) (nowMs : Int) : Bool :=
  let month := digitsToInt (ds.take 2)
  let day := digitsToInt ((ds.drop 2).take 2)
  let targetYear := determineYearForDate month day nowMs
  let diffMs := jsDateMs targetYear month day - nowMs
  decide (-(2 * 86400000) ≤ diffMs ∧ diffMs ≤ 8 * 86400000)

/-- The parser's error kinds. -/
inductive ParseErrorKind where
  | format
  | date_limit
deriving Repr, DecidableEq

/-- The `AvailabilityEntry` interface of `src/parser.ts`. -/
structure AvailabilityEntry where
  userId : Int
  username : String
  date : String
  departure : String
  arrival : String
  originalText : String
  expiryTimestamp : Int
deriving Repr, DecidableEq

/-- The `ParseResult` interface of `src/parser.ts`. -/
structure ParseResult where
  success : Bool
  entry : Option AvailabilityEntry
  error : Option ParseErrorKind
deriving Repr, DecidableEq

/-- `parseAvailabilityEntry`.  `nowMs` is the current instant (the
source reads the clock through `new Date()`), and `svc` the module-level
timezone service singleton, both passed explicitly. -/
def parseAvailabilityEntry (text : String) (userId : Int) (username : String)
    (fullCommand : Option String) (nowMs : Int) (svc : AirportTimezoneService) :
    ParseResult :=
  let normalizedText := jsToLower (jsTrim text)
  match tryPatterns normalizedText.toList with
  | none => { success := false, entry := none, error := some ParseErrorKind.format }
  | some (dateStr, departure, arrival) =>
    if departure.length = 3 ∧ arrival.length = 3 then
      if isValidDateFormat dateStr then
        if isDateWithinRange dateStr nowMs then
          let month := digitsToInt (dateStr.take 2)
          let day := digitsToInt ((dateStr.drop 2).take 2)
          let year := determineYearForDate month day nowMs
          let fullDate := mkFullDate year month day
          let mmdd := mkMMDD month day
          let expiryTimestamp :=
            svc.getMidnightTimestamp (jsToUpper (String.mk departure)) mmdd (some year) nowMs
          { success := true
            entry := some {
              userId := userId
              username := username
              date := fullDate
              departure := jsToUpper (String.mk departure)
              arrival := jsToUpper (String.mk arrival)
              originalText := match fullCommand with | some fc => jsTrim fc | none => jsTrim text
              expiryTimestamp := expiryTimestamp }
            error := none }
        else
          { success := false, entry := none, error := some ParseErrorKind.date_limit }
      else
        { success := false, entry := none, error := some ParseErrorKind.format }
    else
      { success := false, entry := none, error := some ParseErrorKind.format }

/-! ### Database wrapper (`src/database.ts`) -/

/-- One row of the SQLite `entries` table. -/
structure EntryRow where
  id : Nat
  user_id : Option Int
  username : String
  date : String
  departure : String
  arrival : String
  original_text : String
  expiry_timestamp : Int
  deleted_at : Option Int
  deletion_reason : Option String
deriving Repr, DecidableEq

/-- The `entries` table plus the AUTOINCREMENT counter. -/
structure DB where
  rows : List EntryRow
  nextId : Nat
deriving Repr, DecidableEq

/-- A freshly created database. -/
def emptyDB : DB := { rows := [], nextId := 1 }

/-- The `{ success, error? }` result of `DatabaseWrapper.addEntry`. -/
structure AddResult where
  success : Bool
  error : Option String
deriving Repr, DecidableEq

/-- The count of `SELECT COUNT(*) FROM entries WHERE user_id = ? AND
deleted_at IS NULL`. -/
def activeUserCount (db : DB) (userId : Int) : Nat :=
  db.rows.countP fun r => decide (r.user_id = some userId ∧ r.deleted_at = none)

/-- Whether inserting an active row `(some userId, date, departure,
arrival)` violates the partial unique index
`idx_entries_unique_active` (`WHERE deleted_at IS NULL AND user_id IS
NOT NULL`). -/
def hasActiveDup (db : DB) (userId : Int) (date departure arrival : String) : Bool :=
  db.rows.any fun r =>
    decide (r.deleted_at = none ∧ r.user_id = some userId ∧ r.date = date ∧
      r.departure = departure ∧ r.arrival = arrival)

/-- The number of active rows for a given `(userId, date, departure,
arrival)` tuple. -/
def activeTupleCount (db : DB) (userId : Int) (date departure arrival : String) : Nat :=
  db.rows.countP fun r =>
    decide (r.deleted_at = none ∧ r.user_id = some userId ∧ r.date = date ∧
      r.departure = departure ∧ r.arrival = arrival)

/-- The fresh row built by the INSERT of `DatabaseWrapper.addEntry`. -/
def newEntryRow (db : DB) (userId : Option Int)
    (username date departure arrival originalText : String)
    (expiryTimestamp : Int) : EntryRow :=
  { id := db.nextId, user_id := userId, username := username, date := date
    departure := departure, arrival := arrival, original_text := originalText
    expiry_timestamp := expiryTimestamp, deleted_at := none, deletion_reason := none }

/-- `DatabaseWrapper.addEntry`: quota check for non-null users, then the
INSERT, whose only possible failure in the model is the unique-index
violation (rows with a null `user_id` are outside the partial index, so
their insertion always succeeds). -/
def addEntry (db : DB) (userId : Option Int)
    (username date departure arrival originalText : String)
    (expiryTimestamp : Int) : DB × AddResult :=
  let inserted : DB :=
    { rows := db.rows ++ [newEntryRow db userId username date departure arrival originalText expiryTimestamp]
      nextId := db.nextId + 1 }
  match userId with
  | some uid =>
    if 3 ≤ activeUserCount db uid then
      (db, { success := false
             error := some ("Maximum 3 entries per user allowed: \"" ++ originalText ++ "\"") })
    else if hasActiveDup db uid date departure arrival then
      (db, { success := false
             error := some ("Entry already exists: \"" ++ originalText ++ "\"") })
    else
      (inserted, { success := true, error := none })
  | none => (inserted, { success := true, error := none })

/-- The WHERE clause of `DatabaseWrapper.removeEntry`. -/
def removeMatches (userId : Int) (date departure arrival : String) (r : EntryRow) : Bool :=
  decide (r.user_id = some userId ∧ r.date = date ∧ r.departure = departure ∧
    r.arrival = arrival ∧ r.deleted_at = none)

/-- Soft-delete marker applied by the UPDATE statements (`deleted_at =
CURRENT_TIMESTAMP, deletion_reason = ?`). -/
def softDelete (now : Int) (reason : String) (r : EntryRow) : EntryRow :=
  { r with deleted_at := some now, deletion_reason := some reason }

/-- `DatabaseWrapper.removeEntry`: soft-deletes every active row
matching `(userId, date, departure, arrival)` and reports whether any
row changed.  `now` models `CURRENT_TIMESTAMP`. -/
def removeEntry (db : DB) (userId : Int) (date departure arrival : String)
    (deletionReason : String) (now : Int) : DB × Bool :=
  let rows := db.rows.map fun r =>
    if removeMatches userId date departure arrival r then softDelete now deletionReason r else r
  ({ db with rows := rows },
   decide (0 < db.rows.countP (removeMatches userId date departure arrival)))

/-- `DatabaseWrapper.clearUserEntries`: soft-deletes all of a user's
active rows with reason `manual` and returns the number affected. -/
def clearUserEntries (db : DB) (userId : Int) (now : Int) : DB × Nat :=
  let pred := fun r : EntryRow => decide (r.user_id = some userId ∧ r.deleted_at = none)
  let rows := db.rows.map fun r => if pred r then softDelete now "manual" r else r
  ({ db with rows := rows }, db.rows.countP pred)

/-- Ordering used to model `ORDER BY date, departure` (SQLite BINARY
collation is codepoint order on these ASCII strings). -/
def dbRowLE (r s : EntryRow) : Prop :=
  strLT r.date s.date = true ∨ (r.date = s.date ∧ strLE r.departure s.departure = true)

instance : DecidableRel dbRowLE := fun _ _ =>
  inferInstanceAs (Decidable (_ ∨ _))

/-- `DatabaseWrapper.getAllEntries`: the active rows, ordered by
`(date, departure)`. -/
def dbGetAllEntries (db : DB) : List EntryRow :=
  (db.rows.filter fun r => decide (r.deleted_at = none)).insertionSort dbRowLE

/-- `DatabaseWrapper.getUserEntries`: a user's active rows, ordered by
`(date, departure)`. -/
def dbGetUserEntries (db : DB) (userId : Int) : List EntryRow :=
  (db.rows.filter fun r => decide (r.user_id = some userId ∧ r.deleted_at = none)).insertionSort dbRowLE

/-- The WHERE clause of `DatabaseWrapper.matchUserToImportedEntries`:
active unclaimed rows with a case-insensitive username match. -/
def claimMatches (username : String) (r : EntryRow) : Bool :=
  decide (r.user_id = none ∧ jsToLower r.username = jsToLower username ∧ r.deleted_at = none)

/-- The row list produced by the claiming UPDATE, before the unique
index is consulted. -/
def claimUpdate (db : DB) (userId : Int) (username : String) : List EntryRow :=
  db.rows.map fun r => if claimMatches username r then { r with user_id := some userId } else r

/-- No violation, between a pair of rows, of the partial unique index
`idx_entries_unique_active`. -/
def uniqueIndexRel (r s : EntryRow) : Prop :=
  ¬(r.deleted_at = none ∧ s.deleted_at = none ∧ r.user_id ≠ none ∧ r.user_id = s.user_id ∧
    r.date = s.date ∧ r.departure = s.departure ∧ r.arrival = s.arrival)

instance : DecidableRel uniqueIndexRel := fun _ _ =>
  inferInstanceAs (Decidable (¬_))

/-- A row list satisfying the partial unique index. -/
def uniqueIndexOk (rows : List EntryRow) : Prop :=
  rows.Pairwise uniqueIndexRel

/-- Decidability of the index check, by recursion on the row list. -/
def decUniqueIndexOk : (rows : List EntryRow) → Decidable (uniqueIndexOk rows)
  | [] => isTrue List.Pairwise.nil
  | r :: rest =>
    have _ : Decidable (uniqueIndexOk rest) := decUniqueIndexOk rest
    decidable_of_iff ((∀ s ∈ rest, uniqueIndexRel r s) ∧ uniqueIndexOk rest)
      List.pairwise_cons.symm

instance (rows : List EntryRow) : Decidable (uniqueIndexOk rows) :=
  decUniqueIndexOk rows

/-- `DatabaseWrapper.matchUserToImportedEntries`: the UPDATE claiming
unclaimed rows.  If the updated table would violate
`idx_entries_unique_active` (two claimed rows colliding with each other
or with an existing active row of the user), SQLite aborts the
statement, the catch block swallows the error and 0 is returned with
the table unchanged; otherwise the matching rows are claimed and their
number returned. -/
def matchUserToImportedEntries (db : DB) (userId : Int) (username : String) : DB × Nat :=
  if uniqueIndexOk (claimUpdate db userId username) then
    ({ db with rows := claimUpdate db userId username },
     db.rows.countP (claimMatches username))
  else
    (db, 0)

/-- Reachable-state wellformedness: AUTOINCREMENT ids are distinct and
the partial unique index holds (no two distinct active rows of the same
non-null user share `(date, departure, arrival)`). -/
def WF (db : DB) : Prop :=
  (db.rows.map EntryRow.id).Nodup ∧
  ∀ r ∈ db.rows, ∀ s ∈ db.rows,
    r.deleted_at = none → s.deleted_at = none → r.user_id ≠ none → r.user_id = s.user_id →
    r.date = s.date → r.departure = s.departure → r.arrival = s.arrival → r = s

instance (db : DB) : Decidable (WF db) :=
  inferInstanceAs (Decidable (_ ∧ _))

/-! ### Storage layer (`AvailabilityStorage`) -/

/-- The view of a row returned by the storage read paths (the
`AvailabilityEntry` mapping in `getAllEntries`/`getUserEntries`; the
`userId` field really carries the nullable `user_id` column). -/
structure EntryView where
  userId : Option Int
  username : String
  date : String
  departure : String
  arrival : String
  originalText : String
  expiryTimestamp : Int
deriving Repr, DecidableEq

/-- The row-to-view mapping of the storage read paths. -/
def toView (r : EntryRow) : EntryView :=
  { userId := r.user_id, username := r.username, date := r.date
    departure := r.departure, arrival := r.arrival
    originalText := r.original_text, expiryTimestamp := r.expiry_timestamp }

/-- One iteration of the loop in
`AvailabilityStorage.cleanupExpiredEntries`: an entry of the snapshot
that is expired (`now >= expiry_timestamp`) and has a non-null
`user_id` is removed through `DatabaseWrapper.removeEntry` with reason
`expired`, the counter incremented when a row actually changed. -/
def cleanupStep (now : Int) (acc : DB × Nat) (entry : EntryRow) : DB × Nat :=
  if now ≥ entry.expiry_timestamp then
    match entry.user_id with
    | some uid =>
      let res := removeEntry acc.1 uid entry.date entry.departure entry.arrival "expired" now
      (res.1, if res.2 then acc.2 + 1 else acc.2)
    | none => acc
  else acc

/-- `AvailabilityStorage.cleanupExpiredEntries`: iterate over a snapshot
of the active rows, soft-deleting the expired claimed ones. -/
def cleanupExpiredEntries (db : DB) (now : Int) : DB × Nat :=
  (dbGetAllEntries db).foldl (cleanupStep now) (db, 0)

/-- Splitting a character list on `-` (models `String.split("-")`). -/
def splitOnDash : List Char → List (List Char)
  | [] => [[]]
  | x :: xs =>
    match splitOnDash xs with
    | [] => [[]]
    | cur :: rest => if x = '-' then [] :: cur :: rest else (x :: cur) :: rest

/-- Models `new Date(s + "T00:00:00Z").getTime()` for the canonical
`YYYY-MM-DD` strings the store holds (the only strings the bot ever
writes to the `date` column). -/
def parseDateMs (s : String) : Int :=
  match splitOnDash s.toList with
  | [y, m, d] => jsDateMs (digitsToInt y) (digitsToInt m) (digitsToInt d)
  | _ => 0

/-- Ordering used to model the comparator of
`AvailabilityStorage.getAllEntries`: `compareDates` on distinct date
strings, `localeCompare` on departure codes otherwise. -/
def storageLE (a b : EntryView) : Prop :=
  (a.date = b.date ∧ strLE a.departure b.departure = true) ∨
  (a.date ≠ b.date ∧ parseDateMs a.date ≤ parseDateMs b.date)

instance : DecidableRel storageLE := fun _ _ =>
  inferInstanceAs (Decidable (_ ∨ _))

/-- `AvailabilityStorage.getAllEntries`: lazy expiry sweep, then the
active rows mapped to views and sorted by date, then departure.
Returns the swept store alongside the list. -/
def storageGetAllEntries (db : DB) (now : Int) : DB × List EntryView :=
  let db1 := (cleanupExpiredEntries db now).1
  (db1, ((dbGetAllEntries db1).map toView).insertionSort storageLE)

/-- `AvailabilityStorage.getUserEntries`: lazy expiry sweep, then the
user's active rows mapped to views. -/
def storageGetUserEntries (db : DB) (userId : Int) (now : Int) : DB × List EntryView :=
  let db1 := (cleanupExpiredEntries db now).1
  (db1, (dbGetUserEntries db1 userId).map toView)

/-! ### `OneWayAvailabilityBot.handleMessage` guard chain -/

/-- The command branch `handleMessage` routes a trimmed message to
after the guards pass (the handlers themselves are outside the part of
the control flow the claims are about). -/
inductive Dispatch where
  | usageAdd
  | cmdAdd
  | usageRemove
  | cmdRemove
  | cmdList
  | cmdClear
  | cmdImp
  | ignored
deriving Repr, DecidableEq

/-- The sequential `if` chain dispatching a trimmed message (`/rm` and
`/rm ...` are rewritten to `/remove` and routed to the remove
handler). -/
def dispatchOf (trimmedText : String) : Dispatch :=
  if trimmedText = "/add" then .usageAdd
  else if jsStartsWith trimmedText "/add " then .cmdAdd
  else if trimmedText = "/remove" then .usageRemove
  else if jsStartsWith trimmedText "/remove " then .cmdRemove
  else if trimmedText = "/rm" then .usageRemove
  else if jsStartsWith trimmedText "/rm " then .cmdRemove
  else if trimmedText = "/list" then .cmdList
  else if trimmedText = "/clear" then .cmdClear
  else if jsStartsWith trimmedText "/import" then .cmdImp
  else .ignored

/-- The guard chain of `OneWayAvailabilityBot.handleMessage` up to
command dispatch: missing/empty text, missing/empty username,
non-private chat and non-members return early (`none` dispatch);
otherwise `matchUserToImportedEntries` runs first and the dispatch
chain sees the claimed store. -/
def handleMessage (db : DB) (text : Option String) (fromId : Int)
    (fromUsername : Option String) (chatIsPrivate : Bool) (isMember : Bool) :
    DB × Option Dispatch :=
  match text with
  | none => (db, none)
  | some t =>
    let trimmedText := jsTrim t
    if trimmedText = "" then (db, none)
    else
      match fromUsername with
      | none => (db, none)
      | some username =>
        if jsTrim username = "" then (db, none)
        else if chatIsPrivate then
          if isMember then
            let db1 := (matchUserToImportedEntries db fromId username).1
            (db1, some (dispatchOf trimmedText))
          else (db, none)
        else (db, none)

/-! ### Operation sequences over the store -/

/-- The store mutations reachable from the bot's command handlers and
the expiry scheduler (`addEntry`, `removeEntry`, `clearUserEntries`,
`cleanupExpiredEntries`), for stating invariants over arbitrary
operation sequences. -/
inductive StoreOp where
  | add (userId : Option Int) (username date departure arrival originalText : String)
      (expiryTimestamp : Int)
  | remove (userId : Int) (date departure arrival deletionReason : String) (now : Int)
  | clear (userId : Int) (now : Int)
  | cleanup (now : Int)

/-- Apply one store operation. -/
def applyOp (db : DB) : StoreOp → DB
  | .add u un d dep arr t e => (addEntry db u un d dep arr t e).1
  | .remove u d dep arr reason now => (removeEntry db u d dep arr reason now).1
  | .clear u now => (clearUserEntries db u now).1
  | .cleanup now => (cleanupExpiredEntries db now).1

/-- Apply a sequence of store operations to a database. -/
def applyOps (db : DB) (ops : List StoreOp) : DB :=
  ops.foldl applyOp db

/-! ### Concrete fixtures used by witnesses and counterexamples -/

/-- A store in which user `7` already has three active entries, one of
them for the tuple `(2025-11-15, BER, IST)`. -/
def wdbFull : DB :=
  { rows :=
      [ { id := 1, user_id := some 7, username := "alice", date := "2025-11-15"
          departure := "BER", arrival := "IST", original_text := "t1"
          expiry_timestamp := 100, deleted_at := none, deletion_reason := none }
      , { id := 2, user_id := some 7, username := "alice", date := "2025-11-16"
          departure := "BER", arrival := "IST", original_text := "t2"
          expiry_timestamp := 200, deleted_at := none, deletion_reason := none }
      , { id := 3, user_id := some 7, username := "alice", date := "2025-11-17"
          departure := "BER", arrival := "IST", original_text := "t3"
          expiry_timestamp := 300, deleted_at := none, deletion_reason := none } ]
    nextId := 4 }

/-- The first row of `wdbSweep`: claimed by user `7`, expiry `100`. -/
def wdbSweepRow1 : EntryRow :=
  { id := 1, user_id := some 7, username := "alice", date := "2025-11-15"
    departure := "BER", arrival := "IST", original_text := "t1"
    expiry_timestamp := 100, deleted_at := none, deletion_reason := none }

/-- A store holding one expired claimed row, one unexpired claimed row
and one expired unclaimed (imported) row. -/
def wdbSweep : DB :=
  { rows :=
      [ { id := 1, user_id := some 7, username := "alice", date := "2025-11-15"
          departure := "BER", arrival := "IST", original_text := "t1"
          expiry_timestamp := 100, deleted_at := none, deletion_reason := none }
      , { id := 2, user_id := some 7, username := "alice", date := "2025-11-16"
          departure := "BER", arrival := "IST", original_text := "t2"
          expiry_timestamp := 500, deleted_at := none, deletion_reason := none }
      , { id := 3, user_id := none, username := "Bob", date := "2025-11-15"
          departure := "HOT", arrival := "DOG", original_text := "imp"
          expiry_timestamp := 100, deleted_at := none, deletion_reason := none } ]
    nextId := 4 }

/-- A store holding a single expired unclaimed (imported) row whose
expiry instant is `100`. -/
def wdbNullExpired : DB :=
  { rows :=
      [ { id := 1, user_id := none, username := "Bob", date := "2025-11-15"
          departure := "HOT", arrival := "DOG", original_text := "imp"
          expiry_timestamp := 100, deleted_at := none, deletion_reason := none } ]
    nextId := 2 }

/-- A store where user `7` owns an active `(2025-11-15, BER, IST)` row
and an unclaimed imported row for the same tuple carries the username
`Alice`: claiming it for user `7` collides with the unique index. -/
def wdbClaimClash : DB :=
  { rows :=
      [ { id := 1, user_id := none, username := "Alice", date := "2025-11-15"
          departure := "BER", arrival := "IST", original_text := "imp1"
          expiry_timestamp := 100, deleted_at := none, deletion_reason := none }
      , { id := 2, user_id := some 7, username := "alice", date := "2025-11-15"
          departure := "BER", arrival := "IST", original_text := "own"
          expiry_timestamp := 100, deleted_at := none, deletion_reason := none } ]
    nextId := 3 }

/-- A timezone service with an empty airport table (the state after a
missing or malformed CSV) and inert oracles. -/
def emptySvc : AirportTimezoneService :=
  { airports := [], geoFind := fun _ _ => none, tzOffsetMs := fun _ _ => 0 }

/-- The caller-independent projection of a parse result: outcome, error
kind, and the structured `(date, departure, arrival)` of the entry —
the components C8 compares across separator variants (`userId`,
`username` and the echoed `originalText` belong to the caller, not to
the parsed structure). -/
def parseProj (p : ParseResult) :
    Bool × Option ParseErrorKind × Option (String × String × String) :=
  (p.success, p.error, p.entry.map fun e => (e.date, e.departure, e.arrival))

/-! ### Predicates characterising the expiry sweep -/

/-- Whether processing snapshot entry `e` during the sweep soft-deletes
row `r`: `e` is expired with a non-null user and `r` is the active row
matching `e`'s removal key. -/
def hitsB (now : Int) (e r : EntryRow) : Bool :=
  decide (now ≥ e.expiry_timestamp ∧ e.user_id ≠ none ∧ r.user_id = e.user_id ∧
    r.date = e.date ∧ r.departure = e.departure ∧ r.arrival = e.arrival ∧
    r.deleted_at = none)

/-- The effect on one row of sweeping all entries of the snapshot
prefix `L`. -/
def sweepMark (now : Int) (L : List EntryRow) (r : EntryRow) : EntryRow :=
  if L.any (fun e => hitsB now e r) then softDelete now "expired" r else r

/-- An active claimed row that has expired: the rows C4 says the sweep
soft-deletes. -/
def expiredB (now : Int) (r : EntryRow) : Bool :=
  decide (r.deleted_at = none ∧ r.user_id ≠ none ∧ now ≥ r.expiry_timestamp)

/-! ## Counting lemmas for the store operations -/

lemma countP_append_singleton {α : Type} (p : α → Bool) (l : List α) (r : α) :
    (l ++ [r]).countP p = l.countP p + (if p r then 1 else 0) := by
  simp [List.countP_append, List.countP_cons]

lemma activeUserCount_removeEntry_le (db : DB) (u : Int) (d dep arr reason : String)
    (now : Int) (uid : Int) :
    activeUserCount (removeEntry db u d dep arr reason now).1 uid ≤ activeUserCount db uid := by
  unfold removeEntry activeUserCount
  simp only [List.countP_map]
  refine List.countP_mono_left ?_
  intro r _ h
  by_cases hm : removeMatches u d dep arr r
  · simp [hm, softDelete, Function.comp] at h
  · simpa [hm, Function.comp] using h

lemma activeUserCount_clearUserEntries_le (db : DB) (u : Int) (now : Int) (uid : Int) :
    activeUserCount (clearUserEntries db u now).1 uid ≤ activeUserCount db uid := by
  unfold clearUserEntries activeUserCount
  simp only [List.countP_map]
  refine List.countP_mono_left ?_
  intro r _ h
  by_cases hm : r.user_id = some u ∧ r.deleted_at = none
  · simp [hm, softDelete, Function.comp] at h
  · simpa [hm, Function.comp] using h

lemma activeUserCount_cleanupStep_le (now : Int) (acc : DB × Nat) (entry : EntryRow)
    (uid : Int) :
    activeUserCount (cleanupStep now acc entry).1 uid ≤ activeUserCount acc.1 uid := by
  unfold cleanupStep
  split
  · split
    · exact activeUserCount_removeEntry_le acc.1 _ _ _ _ _ _ uid
    · exact le_refl _
  · exact le_refl _

lemma activeUserCount_foldl_cleanupStep_le (now : Int) :
    ∀ (L : List EntryRow) (acc : DB × Nat) (uid : Int),
      activeUserCount (L.foldl (cleanupStep now) acc).1 uid ≤ activeUserCount acc.1 uid := by
  intro L
  induction L with
  | nil => intro acc uid; exact le_refl _
  | cons e L ih =>
    intro acc uid
    rw [List.foldl_cons]
    exact le_trans (ih (cleanupStep now acc e) uid) (activeUserCount_cleanupStep_le now acc e uid)

lemma activeUserCount_cleanup_le (db : DB) (now : Int) (uid : Int) :
    activeUserCount (cleanupExpiredEntries db now).1 uid ≤ activeUserCount db uid :=
  activeUserCount_foldl_cleanupStep_le now (dbGetAllEntries db) (db, 0) uid

lemma addEntry_quota_eq (db : DB) (uid : Int) (un d dep arr t : String) (e : Int)
    (hq : 3 ≤ activeUserCount db uid) :
    addEntry db (some uid) un d dep arr t e =
      (db, { success := false
             error := some ("Maximum 3 entries per user allowed: \"" ++ t ++ "\"") }) := by
  unfold addEntry
  dsimp only
  rw [if_pos hq]

lemma addEntry_dup_eq (db : DB) (uid : Int) (un d dep arr t : String) (e : Int)
    (hq : ¬ 3 ≤ activeUserCount db uid) (hd : hasActiveDup db uid d dep arr = true) :
    addEntry db (some uid) un d dep arr t e =
      (db, { success := false
             error := some ("Entry already exists: \"" ++ t ++ "\"") }) := by
  unfold addEntry
  dsimp only
  rw [if_neg hq, if_pos hd]

lemma addEntry_insert_eq (db : DB) (uid : Int) (un d dep arr t : String) (e : Int)
    (hq : ¬ 3 ≤ activeUserCount db uid) (hd : ¬ hasActiveDup db uid d dep arr = true) :
    addEntry db (some uid) un d dep arr t e =
      ({ rows := db.rows ++ [newEntryRow db (some uid) un d dep arr t e]
         nextId := db.nextId + 1 },
       { success := true, error := none }) := by
  unfold addEntry
  dsimp only
  rw [if_neg hq, if_neg hd]

lemma addEntry_none_eq (db : DB) (un d dep arr t : String) (e : Int) :
    addEntry db none un d dep arr t e =
      ({ rows := db.rows ++ [newEntryRow db none un d dep arr t e]
         nextId := db.nextId + 1 },
       { success := true, error := none }) := rfl

lemma activeUserCount_addEntry_le_three (db : DB) (u : Option Int)
    (un d dep arr t : String) (e : Int) (uid : Int)
    (h : activeUserCount db uid ≤ 3) :
    activeUserCount (addEntry db u un d dep arr t e).1 uid ≤ 3 := by
  cases u with
  | none =>
    rw [addEntry_none_eq]
    unfold activeUserCount at h ⊢
    rw [countP_append_singleton]
    have hnr : decide ((newEntryRow db none un d dep arr t e).user_id = some uid ∧
        (newEntryRow db none un d dep arr t e).deleted_at = none) = false := by
      simp [newEntryRow]
    rw [hnr, if_neg Bool.false_ne_true]
    omega
  | some v =>
    by_cases hq : 3 ≤ activeUserCount db v
    · rw [addEntry_quota_eq db v un d dep arr t e hq]
      exact h
    · by_cases hd : hasActiveDup db v d dep arr = true
      · rw [addEntry_dup_eq db v un d dep arr t e hq hd]
        exact h
      · rw [addEntry_insert_eq db v un d dep arr t e hq hd]
        unfold activeUserCount at h hq ⊢
        rw [countP_append_singleton]
        by_cases huv : v = uid
        · subst huv
          have hnr : decide ((newEntryRow db (some v) un d dep arr t e).user_id = some v ∧
              (newEntryRow db (some v) un d dep arr t e).deleted_at = none) = true := by
            simp [newEntryRow]
          rw [hnr, if_pos rfl]
          omega
        · have hnr : decide ((newEntryRow db (some v) un d dep arr t e).user_id = some uid ∧
              (newEntryRow db (some v) un d dep arr t e).deleted_at = none) = false := by
            simp [newEntryRow]
            intro hcontra
            exact absurd hcontra huv
          rw [hnr, if_neg Bool.false_ne_true]
          omega

lemma applyOp_quota_le_three (db : DB) (op : StoreOp) (uid : Int)
    (h : ∀ u, activeUserCount db u ≤ 3) :
    activeUserCount (applyOp db op) uid ≤ 3 := by
  cases op with
  | add u un d dep arr t e =>
    exact activeUserCount_addEntry_le_three db u un d dep arr t e uid (h uid)
  | remove u d dep arr reason now =>
    exact le_trans (activeUserCount_removeEntry_le db u d dep arr reason now uid) (h uid)
  | clear u now =>
    exact le_trans (activeUserCount_clearUserEntries_le db u now uid) (h uid)
  | cleanup now =>
    exact le_trans (activeUserCount_cleanup_le db now uid) (h uid)

lemma applyOps_quota_le_three :
    ∀ (ops : List StoreOp) (db : DB), (∀ u, activeUserCount db u ≤ 3) →
      ∀ uid, activeUserCount (applyOps db ops) uid ≤ 3 := by
  intro ops
  induction ops with
  | nil => intro db h uid; exact h uid
  | cons op ops ih =>
    intro db h uid
    show activeUserCount ((op :: ops).foldl applyOp db) uid ≤ 3
    rw [List.foldl_cons]
    exact ih (applyOp db op) (fun u => applyOp_quota_le_three db op u h) uid

/-! ## C1 -/

/-- C1: for every user with a non-null `userId`, after any sequence of
`addEntry`, `removeEntry`, `clearUserEntries` and
`cleanupExpiredEntries` operations on an initially empty store the
number of active entries of that user never exceeds 3; an `addEntry`
for a user who already has 3 active entries returns `success = false`
with the quota error quoting the original text and leaves exactly 3
active entries; `addEntry` with a null `userId` is never subjected to
the quota check (it always succeeds). -/
theorem addEntry_quota_invariant_C1 :
    (∀ (ops : List StoreOp) (uid : Int), activeUserCount (applyOps emptyDB ops) uid ≤ 3)
    ∧ (∀ (db : DB) (uid : Int) (un d dep arr t : String) (e : Int),
        activeUserCount db uid = 3 →
          addEntry db (some uid) un d dep arr t e =
            (db, { success := false
                   error := some ("Maximum 3 entries per user allowed: \"" ++ t ++ "\"") })
          ∧ activeUserCount (addEntry db (some uid) un d dep arr t e).1 uid = 3)
    ∧ (∀ (db : DB) (un d dep arr t : String) (e : Int),
        (addEntry db none un d dep arr t e).2 = { success := true, error := none }) := by
  refine ⟨?_, ?_, ?_⟩
  · intro ops uid
    refine applyOps_quota_le_three ops emptyDB ?_ uid
    intro u
    simp [emptyDB, activeUserCount]
  · intro db uid un d dep arr t e h
    have hq : 3 ≤ activeUserCount db uid := le_of_eq h.symm
    constructor
    · exact addEntry_quota_eq db uid un d dep arr t e hq
    · rw [addEntry_quota_eq db uid un d dep arr t e hq]
      exact h
  · intro db un d dep arr t e
    rfl

/-- Witness for C1 at concrete inputs. -/
theorem addEntry_quota_invariant_C1_witness :
    activeUserCount (applyOps emptyDB
      [StoreOp.add (some 7) "alice" "2025-11-15" "BER" "IST" "t1" 100]) 7 ≤ 3
    ∧ (activeUserCount wdbFull 7 = 3
        ∧ addEntry wdbFull (some 7) "alice" "2025-11-18" "AAA" "BBB" "t4" 400 =
            (wdbFull, { success := false
                        error := some ("Maximum 3 entries per user allowed: \"" ++ "t4" ++ "\"") })
        ∧ activeUserCount (addEntry wdbFull (some 7) "alice" "2025-11-18" "AAA" "BBB" "t4" 400).1 7 = 3)
    ∧ (addEntry wdbFull none "x" "2025-11-18" "AAA" "BBB" "t6" 1).2 =
        { success := true, error := none } := by
  have h3 : activeUserCount wdbFull 7 = 3 := by decide
  refine ⟨addEntry_quota_invariant_C1.1 _ 7, ⟨h3, ?_, ?_⟩, addEntry_quota_invariant_C1.2.2 wdbFull "x" "2025-11-18" "AAA" "BBB" "t6" 1⟩
  · exact (addEntry_quota_invariant_C1.2.1 wdbFull 7 "alice" "2025-11-18" "AAA" "BBB" "t4" 400 h3).1
  · exact (addEntry_quota_invariant_C1.2.1 wdbFull 7 "alice" "2025-11-18" "AAA" "BBB" "t4" 400 h3).2

/-! ## C2 -/

lemma addEntry_success_inv (db : DB) (uid : Int) (un d dep arr t : String) (e : Int)
    (h : (addEntry db (some uid) un d dep arr t e).2.success = true) :
    ¬ 3 ≤ activeUserCount db uid ∧ hasActiveDup db uid d dep arr = false := by
  by_cases hq : 3 ≤ activeUserCount db uid
  · rw [addEntry_quota_eq db uid un d dep arr t e hq] at h
    simp at h
  · by_cases hd : hasActiveDup db uid d dep arr = true
    · rw [addEntry_dup_eq db uid un d dep arr t e hq hd] at h
      simp at h
    · exact ⟨hq, by simpa using hd⟩

/-- C2: for a non-null `userId` below quota, a second `addEntry` with
the same `(date, departure, arrival)` while the first entry is still
active fails with the `Entry already exists` error quoting the second
call's original text, leaves the store unchanged, and the store then
contains exactly one active row for that tuple. -/
theorem addEntry_duplicate_C2 (db : DB) (uid : Int) (un1 un2 d dep arr t1 t2 : String)
    (e1 e2 : Int)
    (hs : (addEntry db (some uid) un1 d dep arr t1 e1).2.success = true)
    (hq2 : activeUserCount (addEntry db (some uid) un1 d dep arr t1 e1).1 uid < 3) :
    addEntry (addEntry db (some uid) un1 d dep arr t1 e1).1 (some uid) un2 d dep arr t2 e2 =
      ((addEntry db (some uid) un1 d dep arr t1 e1).1,
       { success := false, error := some ("Entry already exists: \"" ++ t2 ++ "\"") })
    ∧ activeTupleCount (addEntry db (some uid) un1 d dep arr t1 e1).1 uid d dep arr = 1 := by
  obtain ⟨hq, hd⟩ := addEntry_success_inv db uid un1 d dep arr t1 e1 hs
  have hdb1 : (addEntry db (some uid) un1 d dep arr t1 e1).1 =
      { rows := db.rows ++ [newEntryRow db (some uid) un1 d dep arr t1 e1]
        nextId := db.nextId + 1 } := by
    rw [addEntry_insert_eq db uid un1 d dep arr t1 e1 hq (by simp [hd])]
  have hnewMatch : decide ((newEntryRow db (some uid) un1 d dep arr t1 e1).deleted_at = none ∧
      (newEntryRow db (some uid) un1 d dep arr t1 e1).user_id = some uid ∧
      (newEntryRow db (some uid) un1 d dep arr t1 e1).date = d ∧
      (newEntryRow db (some uid) un1 d dep arr t1 e1).departure = dep ∧
      (newEntryRow db (some uid) un1 d dep arr t1 e1).arrival = arr) = true := by
    simp [newEntryRow]
  have hdup1 : hasActiveDup (addEntry db (some uid) un1 d dep arr t1 e1).1 uid d dep arr = true := by
    rw [hdb1]
    unfold hasActiveDup
    rw [List.any_append]
    apply Bool.or_eq_true_iff.mpr
    right
    simpa using hnewMatch
  constructor
  · exact addEntry_dup_eq _ uid un2 d dep arr t2 e2 (Nat.not_le.mpr hq2) hdup1
  · rw [hdb1]
    unfold activeTupleCount
    rw [countP_append_singleton]
    have h0 : db.rows.countP (fun r =>
        decide (r.deleted_at = none ∧ r.user_id = some uid ∧ r.date = d ∧
          r.departure = dep ∧ r.arrival = arr)) = 0 := by
      rw [List.countP_eq_zero]
      intro r hr hp
      unfold hasActiveDup at hd
      have := List.any_eq_false.mp hd r hr
      exact this hp
    rw [h0, hnewMatch, if_pos rfl]

/-- Witness for C2 at concrete inputs (first add on the empty store). -/
theorem addEntry_duplicate_C2_witness :
    (addEntry emptyDB (some 7) "alice" "2025-11-15" "BER" "IST" "t1" 100).2.success = true
    ∧ activeUserCount (addEntry emptyDB (some 7) "alice" "2025-11-15" "BER" "IST" "t1" 100).1 7 < 3
    ∧ (addEntry (addEntry emptyDB (some 7) "alice" "2025-11-15" "BER" "IST" "t1" 100).1
        (some 7) "alice" "2025-11-15" "BER" "IST" "t2" 100 =
          ((addEntry emptyDB (some 7) "alice" "2025-11-15" "BER" "IST" "t1" 100).1,
           { success := false, error := some ("Entry already exists: \"" ++ "t2" ++ "\"") })
        ∧ activeTupleCount (addEntry emptyDB (some 7) "alice" "2025-11-15" "BER" "IST" "t1" 100).1
            7 "2025-11-15" "BER" "IST" = 1) := by
  have hs : (addEntry emptyDB (some 7) "alice" "2025-11-15" "BER" "IST" "t1" 100).2.success = true := by
    decide
  have hq2 : activeUserCount (addEntry emptyDB (some 7) "alice" "2025-11-15" "BER" "IST" "t1" 100).1 7 < 3 := by
    decide
  exact ⟨hs, hq2,
    addEntry_duplicate_C2 emptyDB 7 "alice" "alice" "2025-11-15" "BER" "IST" "t1" "t2" 100 100 hs hq2⟩

/-! ## C10 -/

/-- C10: when a user already has 3 active entries and calls `addEntry`
with a tuple identical to one of their existing active entries, the
quota check takes precedence over the duplicate check: the call returns
the quota error (not the duplicate error) and no row is inserted. -/
theorem addEntry_quota_precedence_C10 (db : DB) (uid : Int) (un d dep arr t : String)
    (e : Int) (h3 : activeUserCount db uid = 3)
    (_hdup : hasActiveDup db uid d dep arr = true) :
    addEntry db (some uid) un d dep arr t e =
      (db, { success := false
             error := some ("Maximum 3 entries per user allowed: \"" ++ t ++ "\"") }) :=
  addEntry_quota_eq db uid un d dep arr t e (le_of_eq h3.symm)

/-- Witness for C10 at a concrete store. -/
theorem addEntry_quota_precedence_C10_witness :
    activeUserCount wdbFull 7 = 3
    ∧ hasActiveDup wdbFull 7 "2025-11-15" "BER" "IST" = true
    ∧ addEntry wdbFull (some 7) "alice" "2025-11-15" "BER" "IST" "dup" 100 =
        (wdbFull, { success := false
                    error := some ("Maximum 3 entries per user allowed: \"" ++ "dup" ++ "\"") }) := by
  have h3 : activeUserCount wdbFull 7 = 3 := by decide
  have hdup : hasActiveDup wdbFull 7 "2025-11-15" "BER" "IST" = true := by decide
  exact ⟨h3, hdup,
    addEntry_quota_precedence_C10 wdbFull 7 "alice" "2025-11-15" "BER" "IST" "dup" 100 h3 hdup⟩

/-! ## C7 -/

/-- C7: a 3-letter code not present in the airport table (in particular
any code when the table is empty because the CSV was absent or
malformed) resolves to the `Etc/UTC-12` fallback — the function is
total, so no exception can escape — and `getMidnightTimestamp` for such
a code returns the instant of the next calendar day `(year, month,
day + 1)` at 12:00 UTC, computed directly: the result does not depend
on the timezone-conversion oracle `tzOffsetMs`, which is universally
quantified here as part of `svc`. -/
theorem getTimezone_fallback_C7 (svc : AirportTimezoneService) (code dateStr : String)
    (y nowMs : Int) (_hlen : code.length = 3)
    (hmiss : svc.airports.lookup (jsToUpper code) = none) (hy : y ≠ 0) :
    svc.getTimezone code = "Etc/UTC-12"
    ∧ svc.getMidnightTimestamp code dateStr (some y) nowMs =
        jsDateMs y (digitsToInt (dateStr.toList.take 2))
          (digitsToInt ((dateStr.toList.drop 2).take 2) + 1) + 12 * 3600000 := by
  have htz : svc.getTimezone code = "Etc/UTC-12" := by
    unfold AirportTimezoneService.getTimezone
    rw [hmiss]
  refine ⟨htz, ?_⟩
  unfold AirportTimezoneService.getMidnightTimestamp
  dsimp only
  rw [htz, if_neg hy, if_pos rfl]

/-- Witness for C7: the empty table (missing CSV) and the code `XXX`. -/
theorem getTimezone_fallback_C7_witness :
    ("XXX" : String).length = 3
    ∧ emptySvc.airports.lookup (jsToUpper "XXX") = none
    ∧ (2025 : Int) ≠ 0
    ∧ emptySvc.getTimezone "XXX" = "Etc/UTC-12"
    ∧ emptySvc.getMidnightTimestamp "XXX" "1115" (some 2025) 0 =
        jsDateMs 2025 (digitsToInt (("1115" : String).toList.take 2))
          (digitsToInt ((("1115" : String).toList.drop 2).take 2) + 1) + 12 * 3600000 := by
  have h := getTimezone_fallback_C7 emptySvc "XXX" "1115" 2025 0 (by decide) (by decide)
    (by decide)
  exact ⟨by decide, by decide, by decide, h.1, h.2⟩

/-! ## Parser lemmas -/

lemma takeCount_some (p : Char → Bool) :
    ∀ (n : Nat) (l a b : List Char), takeCount p n l = some (a, b) → a.length = n := by
  intro n
  induction n with
  | zero =>
    intro l a b h
    unfold takeCount at h
    simp at h
    rw [h.1]
    rfl
  | succ n ih =>
    intro l a b h
    unfold takeCount at h
    cases l with
    | nil => cases h
    | cons c rest =>
      dsimp only at h
      by_cases hp : p c = true
      · rw [if_pos hp] at h
        cases hrec : takeCount p n rest with
        | none => rw [hrec] at h; cases h
        | some x =>
          rw [hrec] at h
          obtain ⟨a0, b0⟩ := x
          simp at h
          rw [← h.1]
          simp [ih rest a0 b0 hrec]
      · rw [if_neg hp] at h
        cases h

lemma matchPattern1_lengths {l ds dep arr : List Char}
    (h : matchPattern1 l = some (ds, dep, arr)) :
    ds.length = 4 ∧ dep.length = 3 ∧ arr.length = 3 := by
  unfold matchPattern1 at h
  cases h4 : takeCount Char.isDigit 4 l with
  | none => rw [h4] at h; cases h
  | some x =>
    obtain ⟨ds0, r1⟩ := x
    rw [h4] at h
    dsimp only at h
    by_cases hs1 : (r1.span isJsSpace).1 = []
    · rw [if_pos hs1] at h; cases h
    · rw [if_neg hs1] at h
      cases h3 : takeCount Char.isLower 3 (r1.span isJsSpace).2 with
      | none => rw [h3] at h; cases h
      | some y =>
        obtain ⟨dep0, r2⟩ := y
        rw [h3] at h
        dsimp only at h
        by_cases hs2 : (r2.span isJsSpace).1 = []
        · rw [if_pos hs2] at h; cases h
        · rw [if_neg hs2] at h
          cases h5 : takeCount Char.isLower 3 (r2.span isJsSpace).2 with
          | none => rw [h5] at h; cases h
          | some z =>
            obtain ⟨arr0, r3⟩ := z
            rw [h5] at h
            dsimp only at h
            by_cases hr3 : r3 = []
            · rw [if_pos hr3] at h
              simp at h
              obtain ⟨hd, he, hf⟩ := h
              subst hd; subst he; subst hf
              exact ⟨takeCount_some _ 4 l _ _ h4, takeCount_some _ 3 _ _ _ h3,
                takeCount_some _ 3 _ _ _ h5⟩
            · rw [if_neg hr3] at h; cases h

lemma matchPattern2_lengths {l ds dep arr : List Char}
    (h : matchPattern2 l = some (ds, dep, arr)) :
    ds.length = 4 ∧ dep.length = 3 ∧ arr.length = 3 := by
  unfold matchPattern2 at h
  cases h4 : takeCount Char.isDigit 4 l with
  | none => rw [h4] at h; cases h
  | some x =>
    obtain ⟨ds0, r1⟩ := x
    rw [h4] at h
    dsimp only at h
    by_cases hs1 : (r1.span isJsSpace).1 = []
    · rw [if_pos hs1] at h; cases h
    · rw [if_neg hs1] at h
      cases h3 : takeCount Char.isLower 3 (r1.span isJsSpace).2 with
      | none => rw [h3] at h; cases h
      | some y =>
        obtain ⟨dep0, r2⟩ := y
        rw [h3] at h
        dsimp only at h
        cases hs2 : (r2.span isJsSpace).2 with
        | nil => rw [hs2] at h; cases h
        | cons c r3 =>
          rw [hs2] at h
          dsimp only at h
          by_cases hc : c = '/'
          · rw [if_pos hc] at h
            cases h5 : takeCount Char.isLower 3 (r3.span isJsSpace).2 with
            | none => rw [h5] at h; cases h
            | some z =>
              obtain ⟨arr0, r4⟩ := z
              rw [h5] at h
              dsimp only at h
              by_cases hr4 : r4 = []
              · rw [if_pos hr4] at h
                simp at h
                obtain ⟨hd, he, hf⟩ := h
                subst hd; subst he; subst hf
                exact ⟨takeCount_some _ 4 l _ _ h4, takeCount_some _ 3 _ _ _ h3,
                  takeCount_some _ 3 _ _ _ h5⟩
              · rw [if_neg hr4] at h; cases h
          · rw [if_neg hc] at h; cases h

lemma matchPattern3_lengths {l ds dep arr : List Char}
    (h : matchPattern3 l = some (ds, dep, arr)) :
    ds.length = 4 ∧ dep.length = 3 ∧ arr.length = 3 := by
  unfold matchPattern3 at h
  cases h4 : takeCount Char.isDigit 4 l with
  | none => rw [h4] at h; cases h
  | some x =>
    obtain ⟨ds0, r1⟩ := x
    rw [h4] at h
    dsimp only at h
    by_cases hs1 : (r1.span isJsSpace).1 = []
    · rw [if_pos hs1] at h; cases h
    · rw [if_neg hs1] at h
      cases h3 : takeCount Char.isLower 3 (r1.span isJsSpace).2 with
      | none => rw [h3] at h; cases h
      | some y =>
        obtain ⟨dep0, r2⟩ := y
        rw [h3] at h
        dsimp only at h
        cases hr2 : r2 with
        | nil => rw [hr2] at h; cases h
        | cons c r3 =>
          rw [hr2] at h
          dsimp only at h
          by_cases hc : c = '-'
          · rw [if_pos hc] at h
            cases h5 : takeCount Char.isLower 3 r3 with
            | none => rw [h5] at h; cases h
            | some z =>
              obtain ⟨arr0, r4⟩ := z
              rw [h5] at h
              dsimp only at h
              by_cases hr4 : r4 = []
              · rw [if_pos hr4] at h
                simp at h
                obtain ⟨hd, he, hf⟩ := h
                subst hd; subst he; subst hf
                exact ⟨takeCount_some _ 4 l _ _ h4, takeCount_some _ 3 _ _ _ h3,
                  takeCount_some _ 3 _ _ _ h5⟩
              · rw [if_neg hr4] at h; cases h
          · rw [if_neg hc] at h; cases h

lemma tryPatterns_lengths {l ds dep arr : List Char}
    (h : tryPatterns l = some (ds, dep, arr)) :
    ds.length = 4 ∧ dep.length = 3 ∧ arr.length = 3 := by
  unfold tryPatterns at h
  cases h1 : matchPattern1 l with
  | some x =>
    rw [h1] at h
    simp [Option.orElse] at h
    subst h
    exact matchPattern1_lengths h1
  | none =>
    rw [h1] at h
    simp only [Option.orElse] at h
    cases h2 : matchPattern2 l with
    | some y =>
      rw [h2] at h
      simp [Option.orElse] at h
      subst h
      exact matchPattern2_lengths h2
    | none =>
      rw [h2] at h
      simp [Option.orElse] at h
      exact matchPattern3_lengths h

lemma parse_eq_format_of_no_match (text : String) (uid : Int) (un : String)
    (fullCmd : Option String) (now : Int) (svc : AirportTimezoneService)
    (hm : tryPatterns (jsToLower (jsTrim text)).toList = none) :
    parseAvailabilityEntry text uid un fullCmd now svc =
      { success := false, entry := none, error := some ParseErrorKind.format } := by
  unfold parseAvailabilityEntry
  dsimp only
  rw [hm]

lemma parse_eq_format_of_invalid (text : String) (uid : Int) (un : String)
    (fullCmd : Option String) (now : Int) (svc : AirportTimezoneService)
    (ds dep arr : List Char)
    (hm : tryPatterns (jsToLower (jsTrim text)).toList = some (ds, dep, arr))
    (hv : isValidDateFormat ds = false) :
    parseAvailabilityEntry text uid un fullCmd now svc =
      { success := false, entry := none, error := some ParseErrorKind.format } := by
  obtain ⟨h4, hd3, ha3⟩ := tryPatterns_lengths hm
  unfold parseAvailabilityEntry
  dsimp only
  rw [hm]
  dsimp only
  rw [if_pos ⟨hd3, ha3⟩, hv, if_neg Bool.false_ne_true]

lemma parse_eq_datelimit (text : String) (uid : Int) (un : String)
    (fullCmd : Option String) (now : Int) (svc : AirportTimezoneService)
    (ds dep arr : List Char)
    (hm : tryPatterns (jsToLower (jsTrim text)).toList = some (ds, dep, arr))
    (hv : isValidDateFormat ds = true) (hw : isDateWithinRange ds now = false) :
    parseAvailabilityEntry text uid un fullCmd now svc =
      { success := false, entry := none, error := some ParseErrorKind.date_limit } := by
  obtain ⟨h4, hd3, ha3⟩ := tryPatterns_lengths hm
  unfold parseAvailabilityEntry
  dsimp only
  rw [hm]
  dsimp only
  rw [if_pos ⟨hd3, ha3⟩, hv, if_pos rfl, hw, if_neg Bool.false_ne_true]

lemma parse_eq_success (text : String) (uid : Int) (un : String)
    (fullCmd : Option String) (now : Int) (svc : AirportTimezoneService)
    (ds dep arr : List Char)
    (hm : tryPatterns (jsToLower (jsTrim text)).toList = some (ds, dep, arr))
    (hv : isValidDateFormat ds = true) (hw : isDateWithinRange ds now = true) :
    parseAvailabilityEntry text uid un fullCmd now svc =
      { success := true
        entry := some {
          userId := uid
          username := un
          date := mkFullDate
            (determineYearForDate (digitsToInt (ds.take 2)) (digitsToInt ((ds.drop 2).take 2)) now)
            (digitsToInt (ds.take 2)) (digitsToInt ((ds.drop 2).take 2))
          departure := jsToUpper (String.mk dep)
          arrival := jsToUpper (String.mk arr)
          originalText := match fullCmd with | some fc => jsTrim fc | none => jsTrim text
          expiryTimestamp := svc.getMidnightTimestamp (jsToUpper (String.mk dep))
            (mkMMDD (digitsToInt (ds.take 2)) (digitsToInt ((ds.drop 2).take 2)))
            (some (determineYearForDate (digitsToInt (ds.take 2))
              (digitsToInt ((ds.drop 2).take 2)) now)) now }
        error := none } := by
  obtain ⟨h4, hd3, ha3⟩ := tryPatterns_lengths hm
  unfold parseAvailabilityEntry
  dsimp only
  rw [hm]
  dsimp only
  rw [if_pos ⟨hd3, ha3⟩, hv, if_pos rfl, hw, if_pos rfl]

/-! ## C6 -/

/-- C6: every input matching one of the accepted separator shapes whose
4-digit date has a month outside 1–12 or a day outside 1–31 fails with
the `format` error and never with `date_limit` — in particular the
result is `format` whatever the date-range on the input would say, so
the range check is only reachable after the format check passes. -/
theorem parse_format_precedence_C6 (text : String) (uid : Int) (un : String)
    (fullCmd : Option String) (now : Int) (svc : AirportTimezoneService)
    (ds dep arr : List Char)
    (hm : tryPatterns (jsToLower (jsTrim text)).toList = some (ds, dep, arr))
    (hbad : ¬(1 ≤ digitsToInt (ds.take 2) ∧ digitsToInt (ds.take 2) ≤ 12 ∧
        1 ≤ digitsToInt ((ds.drop 2).take 2) ∧ digitsToInt ((ds.drop 2).take 2) ≤ 31)) :
    parseAvailabilityEntry text uid un fullCmd now svc =
      { success := false, entry := none, error := some ParseErrorKind.format } := by
  have hv : isValidDateFormat ds = false := by
    unfold isValidDateFormat
    dsimp only
    exact decide_eq_false hbad
  exact parse_eq_format_of_invalid text uid un fullCmd now svc ds dep arr hm hv

/-- Witness for C6: the input `1332 ber ist` (month 13). -/
theorem parse_format_precedence_C6_witness :
    tryPatterns (jsToLower (jsTrim "1332 ber ist")).toList =
      some (("1332" : String).toList, ("ber" : String).toList, ("ist" : String).toList)
    ∧ parseAvailabilityEntry "1332 ber ist" 123 "alice" none 0 emptySvc =
        { success := false, entry := none, error := some ParseErrorKind.format } := by
  have hm : tryPatterns (jsToLower (jsTrim "1332 ber ist")).toList =
      some (("1332" : String).toList, ("ber" : String).toList, ("ist" : String).toList) := by
    decide
  exact ⟨hm, parse_format_precedence_C6 "1332 ber ist" 123 "alice" none 0 emptySvc
    _ _ _ hm (by decide)⟩

/-! ## C5 -/

/-- C5: `parseAvailabilityEntry` succeeds only when the resolved full
date lies between 2 days in the past and 8 days in the future of `now`,
both ends inclusive; and every structurally valid input (an accepted
separator shape with in-range month and day) whose resolved date lies
outside that window fails with `date_limit`, never with `format`. -/
theorem parse_date_window_C5 (text : String) (uid : Int) (un : String)
    (fullCmd : Option String) (now : Int) (svc : AirportTimezoneService) :
    ((parseAvailabilityEntry text uid un fullCmd now svc).success = true →
      ∃ en y m d, (parseAvailabilityEntry text uid un fullCmd now svc).entry = some en
        ∧ en.date = mkFullDate y m d
        ∧ -(2 * 86400000) ≤ jsDateMs y m d - now
        ∧ jsDateMs y m d - now ≤ 8 * 86400000)
    ∧ (∀ ds dep arr, tryPatterns (jsToLower (jsTrim text)).toList = some (ds, dep, arr) →
        (1 ≤ digitsToInt (ds.take 2) ∧ digitsToInt (ds.take 2) ≤ 12 ∧
          1 ≤ digitsToInt ((ds.drop 2).take 2) ∧ digitsToInt ((ds.drop 2).take 2) ≤ 31) →
        ¬(-(2 * 86400000) ≤
            jsDateMs (determineYearForDate (digitsToInt (ds.take 2))
              (digitsToInt ((ds.drop 2).take 2)) now)
              (digitsToInt (ds.take 2)) (digitsToInt ((ds.drop 2).take 2)) - now
          ∧ jsDateMs (determineYearForDate (digitsToInt (ds.take 2))
              (digitsToInt ((ds.drop 2).take 2)) now)
              (digitsToInt (ds.take 2)) (digitsToInt ((ds.drop 2).take 2)) - now
            ≤ 8 * 86400000) →
        parseAvailabilityEntry text uid un fullCmd now svc =
          { success := false, entry := none, error := some ParseErrorKind.date_limit }) := by
  constructor
  · intro hs
    cases hm : tryPatterns (jsToLower (jsTrim text)).toList with
    | none =>
      rw [parse_eq_format_of_no_match text uid un fullCmd now svc hm] at hs
      cases hs
    | some x =>
      obtain ⟨ds, dep, arr⟩ := x
      cases hv : isValidDateFormat ds with
      | false =>
        rw [parse_eq_format_of_invalid text uid un fullCmd now svc ds dep arr hm hv] at hs
        cases hs
      | true =>
        cases hw : isDateWithinRange ds now with
        | false =>
          rw [parse_eq_datelimit text uid un fullCmd now svc ds dep arr hm hv hw] at hs
          cases hs
        | true =>
          rw [parse_eq_success text uid un fullCmd now svc ds dep arr hm hv hw]
          refine ⟨_, determineYearForDate (digitsToInt (ds.take 2))
            (digitsToInt ((ds.drop 2).take 2)) now,
            digitsToInt (ds.take 2), digitsToInt ((ds.drop 2).take 2), rfl, rfl, ?_, ?_⟩
          · have := of_decide_eq_true (by
              unfold isDateWithinRange at hw
              dsimp only at hw
              exact hw)
            exact this.1
          · have := of_decide_eq_true (by
              unfold isDateWithinRange at hw
              dsimp only at hw
              exact hw)
            exact this.2
  · intro ds dep arr hm hgood hout
    have hv : isValidDateFormat ds = true := by
      unfold isValidDateFormat
      dsimp only
      exact decide_eq_true hgood
    have hw : isDateWithinRange ds now = false := by
      unfold isDateWithinRange
      dsimp only
      exact decide_eq_false hout
    exact parse_eq_datelimit text uid un fullCmd now svc ds dep arr hm hv hw

/-- Witness for C5: a success inside the window (the spec's end-to-end
example instant 2025-11-13T10:00:00Z) and a `date_limit` failure at an
instant far outside it. -/
theorem parse_date_window_C5_witness :
    (parseAvailabilityEntry "1115 ber ist" 123 "alice" none
        (86400000 * civilDays 2025 11 13 + 10 * 3600000) emptySvc).success = true
    ∧ (∃ en y m d, (parseAvailabilityEntry "1115 ber ist" 123 "alice" none
          (86400000 * civilDays 2025 11 13 + 10 * 3600000) emptySvc).entry = some en
        ∧ en.date = mkFullDate y m d
        ∧ -(2 * 86400000) ≤ jsDateMs y m d - (86400000 * civilDays 2025 11 13 + 10 * 3600000)
        ∧ jsDateMs y m d - (86400000 * civilDays 2025 11 13 + 10 * 3600000) ≤ 8 * 86400000)
    ∧ parseAvailabilityEntry "0101 ber ist" 123 "alice" none
        (86400000 * civilDays 2025 11 13 + 10 * 3600000) emptySvc =
        { success := false, entry := none, error := some ParseErrorKind.date_limit } := by
  have hs : (parseAvailabilityEntry "1115 ber ist" 123 "alice" none
      (86400000 * civilDays 2025 11 13 + 10 * 3600000) emptySvc).success = true := by
    decide
  have hm : tryPatterns (jsToLower (jsTrim "0101 ber ist")).toList =
      some (("0101" : String).toList, ("ber" : String).toList, ("ist" : String).toList) := by
    decide
  refine ⟨hs, (parse_date_window_C5 "1115 ber ist" 123 "alice" none
    (86400000 * civilDays 2025 11 13 + 10 * 3600000) emptySvc).1 hs,
    (parse_date_window_C5 "0101 ber ist" 123 "alice" none
      (86400000 * civilDays 2025 11 13 + 10 * 3600000) emptySvc).2
      ("0101" : String).toList ("ber" : String).toList ("ist" : String).toList hm
      (by decide) (by decide)⟩

/-! ## C8 -/

/-- C8: evaluated at the same `now`, parsing each separator variant of
the same logical entry — `1115 ber ist`, `1115 ber/ist`,
`1115 ber-ist`, under any upper/lower casing and surrounding
whitespace — yields the identical structured result: same outcome,
same resolved `YYYY-MM-DD` date, same uppercase departure and arrival
codes. -/
theorem parse_separator_equiv_C8 (now : Int) (svc : AirportTimezoneService)
    (uid1 uid2 uid3 : Int) (un1 un2 un3 : String) (fc1 fc2 fc3 : Option String)
    (s1 s2 s3 : String)
    (h1 : jsToLower (jsTrim s1) = "1115 ber ist")
    (h2 : jsToLower (jsTrim s2) = "1115 ber/ist")
    (h3 : jsToLower (jsTrim s3) = "1115 ber-ist") :
    parseProj (parseAvailabilityEntry s1 uid1 un1 fc1 now svc) =
      parseProj (parseAvailabilityEntry s2 uid2 un2 fc2 now svc)
    ∧ parseProj (parseAvailabilityEntry s2 uid2 un2 fc2 now svc) =
      parseProj (parseAvailabilityEntry s3 uid3 un3 fc3 now svc) := by
  have hm1 : tryPatterns (jsToLower (jsTrim s1)).toList =
      some (("1115" : String).toList, ("ber" : String).toList, ("ist" : String).toList) := by
    rw [h1]; decide
  have hm2 : tryPatterns (jsToLower (jsTrim s2)).toList =
      some (("1115" : String).toList, ("ber" : String).toList, ("ist" : String).toList) := by
    rw [h2]; decide
  have hm3 : tryPatterns (jsToLower (jsTrim s3)).toList =
      some (("1115" : String).toList, ("ber" : String).toList, ("ist" : String).toList) := by
    rw [h3]; decide
  have hv : isValidDateFormat ("1115" : String).toList = true := by decide
  cases hw : isDateWithinRange ("1115" : String).toList now with
  | false =>
    rw [parse_eq_datelimit s1 uid1 un1 fc1 now svc _ _ _ hm1 hv hw,
      parse_eq_datelimit s2 uid2 un2 fc2 now svc _ _ _ hm2 hv hw,
      parse_eq_datelimit s3 uid3 un3 fc3 now svc _ _ _ hm3 hv hw]
    exact ⟨rfl, rfl⟩
  | true =>
    rw [parse_eq_success s1 uid1 un1 fc1 now svc _ _ _ hm1 hv hw,
      parse_eq_success s2 uid2 un2 fc2 now svc _ _ _ hm2 hv hw,
      parse_eq_success s3 uid3 un3 fc3 now svc _ _ _ hm3 hv hw]
    exact ⟨rfl, rfl⟩

/-- Witness for C8 at mixed-case, padded concrete variants. -/
theorem parse_separator_equiv_C8_witness :
    jsToLower (jsTrim "1115 BER IST") = "1115 ber ist"
    ∧ jsToLower (jsTrim " 1115 Ber/Ist ") = "1115 ber/ist"
    ∧ jsToLower (jsTrim "1115 ber-IST") = "1115 ber-ist"
    ∧ (parseProj (parseAvailabilityEntry "1115 BER IST" 1 "alice" none 1763028000000 emptySvc) =
        parseProj (parseAvailabilityEntry " 1115 Ber/Ist " 2 "bob" (some "cmd") 1763028000000 emptySvc)
      ∧ parseProj (parseAvailabilityEntry " 1115 Ber/Ist " 2 "bob" (some "cmd") 1763028000000 emptySvc) =
        parseProj (parseAvailabilityEntry "1115 ber-IST" 3 "carol" none 1763028000000 emptySvc)) := by
  have h1 : jsToLower (jsTrim "1115 BER IST") = "1115 ber ist" := by decide
  have h2 : jsToLower (jsTrim " 1115 Ber/Ist ") = "1115 ber/ist" := by decide
  have h3 : jsToLower (jsTrim "1115 ber-IST") = "1115 ber-ist" := by decide
  exact ⟨h1, h2, h3, parse_separator_equiv_C8 1763028000000 emptySvc 1 2 3 "alice" "bob" "carol"
    none (some "cmd") none "1115 BER IST" " 1115 Ber/Ist " "1115 ber-IST" h1 h2 h3⟩

/-! ## Sweep characterisation lemmas -/

lemma hitsB_of_user_none (now : Int) (e r : EntryRow) (h : e.user_id = none) :
    hitsB now e r = false := by
  simp [hitsB, h]

lemma hitsB_of_not_expired (now : Int) (e r : EntryRow) (h : ¬ now ≥ e.expiry_timestamp) :
    hitsB now e r = false := by
  simp [hitsB, h]

lemma hitsB_softDelete (now now2 : Int) (reason : String) (e r : EntryRow) :
    hitsB now e (softDelete now2 reason r) = false := by
  simp [hitsB, softDelete]

lemma removeMatches_eq_hitsB (now : Int) (e : EntryRow) (uid : Int)
    (hu : e.user_id = some uid) (hexp : now ≥ e.expiry_timestamp) (r : EntryRow) :
    removeMatches uid e.date e.departure e.arrival r = hitsB now e r := by
  unfold removeMatches hitsB
  rw [decide_eq_decide]
  constructor
  · intro h
    exact ⟨hexp, by simp [hu], by rw [hu]; exact h.1, h.2.1, h.2.2.1, h.2.2.2.1, h.2.2.2.2⟩
  · intro h
    exact ⟨by rw [← hu]; exact h.2.2.1, h.2.2.2.1, h.2.2.2.2.1, h.2.2.2.2.2.1,
      h.2.2.2.2.2.2⟩

lemma list_any_congr {α : Type} {p q : α → Bool} (l : List α) (h : ∀ a, p a = q a) :
    l.any p = l.any q := by
  induction l with
  | nil => rfl
  | cons a l ih => rw [List.any_cons, List.any_cons, h a, ih]

lemma decide_countP_pos_eq_any {α : Type} (p : α → Bool) (l : List α) :
    decide (0 < l.countP p) = l.any p := by
  induction l with
  | nil => rfl
  | cons a l ih =>
    rw [List.countP_cons, List.any_cons]
    by_cases hp : p a = true
    · simp [hp]
    · simp only [Bool.not_eq_true] at hp
      simp [hp, ← ih]

lemma map_sweepMark_nil (now : Int) (l : List EntryRow) :
    l.map (sweepMark now []) = l := by
  calc l.map (sweepMark now []) = l.map id :=
        List.map_congr_left (fun r _ => by simp [sweepMark])
    _ = l := List.map_id l

lemma cleanupStep_eq_map (now : Int) (db : DB) (n : Nat) (e : EntryRow) :
    cleanupStep now (db, n) e =
      ({ rows := db.rows.map (fun r => if hitsB now e r then softDelete now "expired" r else r)
         nextId := db.nextId },
       n + (if db.rows.any (fun r => hitsB now e r) then 1 else 0)) := by
  have hid : ∀ (hfalse : ∀ r, hitsB now e r = false),
      ({ rows := db.rows.map (fun r => if hitsB now e r then softDelete now "expired" r else r)
         nextId := db.nextId }, n + (if db.rows.any (fun r => hitsB now e r) then 1 else 0)) =
        ((db, n) : DB × Nat) := by
    intro hfalse
    have hmap : db.rows.map (fun r => if hitsB now e r then softDelete now "expired" r else r) =
        db.rows := by
      calc db.rows.map (fun r => if hitsB now e r then softDelete now "expired" r else r) =
            db.rows.map id := List.map_congr_left (fun r _ => by rw [hfalse r]; rfl)
        _ = db.rows := List.map_id db.rows
    have hany : db.rows.any (fun r => hitsB now e r) = false := by
      rw [List.any_eq_false]
      intro r _
      rw [hfalse r]
      simp
    rw [hmap, hany, if_neg Bool.false_ne_true, Nat.add_zero]
  unfold cleanupStep
  by_cases hexp : now ≥ e.expiry_timestamp
  · rw [if_pos hexp]
    cases hu : e.user_id with
    | none =>
      dsimp only
      exact (hid (fun r => hitsB_of_user_none now e r hu)).symm
    | some uid =>
      dsimp only
      unfold removeEntry
      dsimp only
      have hmap : (db.rows.map fun r =>
            if removeMatches uid e.date e.departure e.arrival r then
              softDelete now "expired" r else r) =
          db.rows.map (fun r => if hitsB now e r then softDelete now "expired" r else r) :=
        List.map_congr_left (fun r _ => by rw [removeMatches_eq_hitsB now e uid hu hexp r])
      have hcnt : decide (0 < db.rows.countP (removeMatches uid e.date e.departure e.arrival)) =
          db.rows.any (fun r => hitsB now e r) := by
        rw [decide_countP_pos_eq_any]
        exact list_any_congr db.rows (fun r => by rw [removeMatches_eq_hitsB now e uid hu hexp r])
      rw [hmap, hcnt]
      by_cases hany : db.rows.any (fun r => hitsB now e r) = true
      · rw [hany, if_pos rfl, if_pos rfl]
      · simp only [Bool.not_eq_true] at hany
        rw [hany, if_neg Bool.false_ne_true, if_neg Bool.false_ne_true, Nat.add_zero]
  · rw [if_neg hexp]
    exact (hid (fun r => hitsB_of_not_expired now e r hexp)).symm

lemma sweepMark_step (now : Int) (P : List EntryRow) (e : EntryRow) (r : EntryRow) :
    (if hitsB now e (sweepMark now P r) then softDelete now "expired" (sweepMark now P r)
      else sweepMark now P r) = sweepMark now (P ++ [e]) r := by
  unfold sweepMark
  by_cases hP : (P.any fun e2 => hitsB now e2 r) = true
  · have h1 : ((P ++ [e]).any fun e2 => hitsB now e2 r) = true := by
      rw [List.any_append, hP]
      rfl
    rw [if_pos hP, if_pos h1, hitsB_softDelete, if_neg Bool.false_ne_true]
  · simp only [Bool.not_eq_true] at hP
    rw [hP, if_neg Bool.false_ne_true, List.any_append, hP]
    simp only [Bool.false_or, List.any_cons, List.any_nil, Bool.or_false]

lemma cleanup_fold_char (db : DB) (now : Int) (hwf : WF db) :
    ∀ (R P : List EntryRow) (n : Nat),
      (∀ e ∈ P ++ R, e.deleted_at = none ∧ e ∈ db.rows) →
      (P ++ R).Nodup →
      R.foldl (cleanupStep now)
        ({ rows := db.rows.map (sweepMark now P), nextId := db.nextId }, n) =
      ({ rows := db.rows.map (sweepMark now (P ++ R)), nextId := db.nextId },
       n + R.countP (expiredB now)) := by
  intro R
  induction R with
  | nil =>
    intro P n hmem hnodup
    simp
  | cons e R ih =>
    intro P n hmem hnodup
    rw [List.foldl_cons, cleanupStep_eq_map]
    have hrows : (db.rows.map (sweepMark now P)).map
        (fun r => if hitsB now e r then softDelete now "expired" r else r) =
        db.rows.map (sweepMark now (P ++ [e])) := by
      rw [List.map_map]
      exact List.map_congr_left (fun r _ => sweepMark_step now P e r)
    have hePactive : e.deleted_at = none ∧ e ∈ db.rows := hmem e (by simp)
    have hmarkE : sweepMark now P e = e := by
      unfold sweepMark
      have hPfalse : (P.any fun e2 => hitsB now e2 e) = false := by
        rw [List.any_eq_false]
        intro e2 he2P hhit
        simp only [hitsB, decide_eq_true_eq] at hhit
        obtain ⟨hexp2, hu2, hueq, hdeq, hdepeq, harreq, _⟩ := hhit
        have he2 : e2.deleted_at = none ∧ e2 ∈ db.rows :=
          hmem e2 (List.mem_append.mpr (Or.inl he2P))
        have heq : e2 = e :=
          hwf.2 e2 he2.2 e hePactive.2 he2.1 hePactive.1 hu2
            hueq.symm hdeq.symm hdepeq.symm harreq.symm
        have hdisj := (List.nodup_append.mp hnodup).2.2
        exact hdisj (heq ▸ he2P) (by simp)
      rw [hPfalse, if_neg Bool.false_ne_true]
    have hmem2 : ∀ x ∈ (P ++ [e]) ++ R, x.deleted_at = none ∧ x ∈ db.rows := by
      intro x hx
      apply hmem
      rw [List.append_assoc] at hx
      simpa using hx
    have hnodup2 : ((P ++ [e]) ++ R).Nodup := by
      rw [List.append_assoc]
      simpa using hnodup
    have harr : (P ++ [e]) ++ R = P ++ e :: R := by simp
    by_cases hproc : now ≥ e.expiry_timestamp ∧ e.user_id ≠ none
    · have hhitEE : hitsB now e e = true := by
        simp only [hitsB, decide_eq_true_eq]
        exact ⟨hproc.1, hproc.2, trivial, trivial, trivial, trivial, hePactive.1⟩
      have hany : (db.rows.map (sweepMark now P)).any (fun r => hitsB now e r) = true := by
        rw [List.any_eq_true]
        refine ⟨sweepMark now P e, List.mem_map_of_mem _ hePactive.2, ?_⟩
        rw [hmarkE]
        exact hhitEE
      rw [hrows, hany, if_pos rfl]
      rw [ih (P ++ [e]) (n + 1) hmem2 hnodup2]
      have hexpE : expiredB now e = true := by
        simp only [expiredB, decide_eq_true_eq]
        exact ⟨hePactive.1, hproc.2, hproc.1⟩
      rw [List.countP_cons, hexpE, if_pos rfl, harr]
      have hn : n + 1 + R.countP (expiredB now) = n + (R.countP (expiredB now) + 1) := by
        omega
      rw [hn]
    · have hforall : ∀ r, hitsB now e r = false := by
        intro r
        by_cases hexp : now ≥ e.expiry_timestamp
        · cases hu : e.user_id with
          | none => exact hitsB_of_user_none now e r hu
          | some uid => exact absurd ⟨hexp, by simp [hu]⟩ hproc
        · exact hitsB_of_not_expired now e r hexp
      have hany : (db.rows.map (sweepMark now P)).any (fun r => hitsB now e r) = false := by
        rw [List.any_eq_false]
        intro r _
        rw [hforall r]
        simp
      rw [hrows, hany, if_neg Bool.false_ne_true, Nat.add_zero]
      rw [ih (P ++ [e]) n hmem2 hnodup2]
      have hexpE : expiredB now e = false := by
        apply decide_eq_false
        intro hcon
        exact hproc ⟨hcon.2.2, hcon.2.1⟩
      rw [List.countP_cons, hexpE, if_neg Bool.false_ne_true, Nat.add_zero, harr]

lemma sweepMark_eq_final (db : DB) (now : Int) (hwf : WF db) (r : EntryRow)
    (hr : r ∈ db.rows) :
    sweepMark now (dbGetAllEntries db) r =
      (if expiredB now r then softDelete now "expired" r else r) := by
  by_cases hex : expiredB now r = true
  · simp only [expiredB, decide_eq_true_eq] at hex
    obtain ⟨hact, hu, hexp⟩ := hex
    have hrsnap : r ∈ dbGetAllEntries db := by
      unfold dbGetAllEntries
      rw [List.mem_insertionSort]
      exact List.mem_filter.mpr ⟨hr, decide_eq_true hact⟩
    unfold sweepMark
    have hany : ((dbGetAllEntries db).any fun e => hitsB now e r) = true := by
      rw [List.any_eq_true]
      refine ⟨r, hrsnap, ?_⟩
      simp only [hitsB, decide_eq_true_eq]
      exact ⟨hexp, hu, trivial, trivial, trivial, trivial, hact⟩
    rw [hany, if_pos rfl]
    rw [if_pos (by simp only [expiredB, decide_eq_true_eq]; exact ⟨hact, hu, hexp⟩)]
  · simp only [Bool.not_eq_true] at hex
    rw [hex, if_neg Bool.false_ne_true]
    unfold sweepMark
    have hany : ((dbGetAllEntries db).any fun e => hitsB now e r) = false := by
      rw [List.any_eq_false]
      intro e2 he2 hhit
      simp only [hitsB, decide_eq_true_eq] at hhit
      obtain ⟨hexp2, hu2, hueq, hdeq, hdepeq, harreq, hact⟩ := hhit
      have he2f : e2 ∈ db.rows ∧ e2.deleted_at = none := by
        unfold dbGetAllEntries at he2
        rw [List.mem_insertionSort] at he2
        have := List.mem_filter.mp he2
        exact ⟨this.1, of_decide_eq_true this.2⟩
      have heq : e2 = r :=
        hwf.2 e2 he2f.1 r hr he2f.2 hact hu2 hueq.symm hdeq.symm hdepeq.symm harreq.symm
      have : expiredB now r = true := by
        simp only [expiredB, decide_eq_true_eq]
        refine ⟨hact, ?_, ?_⟩
        · rw [heq] at hu2
          exact hu2
        · rw [heq] at hexp2
          exact hexp2
      rw [this] at hex
      cases hex
    rw [hany, if_neg Bool.false_ne_true]

lemma cleanupExpiredEntries_char (db : DB) (now : Int) (hwf : WF db) :
    cleanupExpiredEntries db now =
      ({ rows := db.rows.map (fun r => if expiredB now r then softDelete now "expired" r else r)
         nextId := db.nextId },
       db.rows.countP (expiredB now)) := by
  have hrowsNodup : db.rows.Nodup := List.Nodup.of_map EntryRow.id hwf.1
  have hfilterNodup : (db.rows.filter fun r => decide (r.deleted_at = none)).Nodup :=
    List.Nodup.filter _ hrowsNodup
  have hperm : List.Perm (dbGetAllEntries db)
      (db.rows.filter (fun r => decide (r.deleted_at = none))) :=
    List.perm_insertionSort dbRowLE _
  have hsnapNodup : (dbGetAllEntries db).Nodup := hperm.symm.nodup hfilterNodup
  have hmem : ∀ e ∈ ([] : List EntryRow) ++ dbGetAllEntries db,
      e.deleted_at = none ∧ e ∈ db.rows := by
    intro e he
    rw [List.nil_append] at he
    unfold dbGetAllEntries at he
    rw [List.mem_insertionSort] at he
    have := List.mem_filter.mp he
    exact ⟨of_decide_eq_true this.2, this.1⟩
  have hnodup : (([] : List EntryRow) ++ dbGetAllEntries db).Nodup := by
    rw [List.nil_append]
    exact hsnapNodup
  have h := cleanup_fold_char db now hwf (dbGetAllEntries db) [] 0 hmem hnodup
  have hinit : ({ rows := db.rows.map (sweepMark now []), nextId := db.nextId } : DB) = db := by
    rw [map_sweepMark_nil]
  rw [hinit] at h
  unfold cleanupExpiredEntries
  rw [h, List.nil_append]
  have hm : db.rows.map (sweepMark now (dbGetAllEntries db)) =
      db.rows.map (fun r => if expiredB now r then softDelete now "expired" r else r) :=
    List.map_congr_left (fun r hr => sweepMark_eq_final db now hwf r hr)
  have hc : (dbGetAllEntries db).countP (expiredB now) = db.rows.countP (expiredB now) := by
    rw [List.Perm.countP_eq (expiredB now) hperm, List.countP_filter]
    refine List.countP_congr ?_
    intro r _
    constructor
    · intro hb
      exact (Bool.and_eq_true _ _).mp hb |>.1
    · intro hb
      refine (Bool.and_eq_true _ _).mpr ⟨hb, ?_⟩
      simp only [expiredB, decide_eq_true_eq] at hb
      exact decide_eq_true hb.1
  rw [hm, hc, Nat.zero_add]

/-! ## C4 -/

/-- C4: on a wellformed store (distinct row ids and the partial unique
index satisfied — both enforced by SQLite on every reachable state),
`cleanupExpiredEntries` soft-deletes with reason `expired` exactly the
active rows with `expiry_timestamp ≤ now` and a non-null `user_id`, and
returns their count; every other row — in particular every row with a
null `user_id`, whatever its expiry, and every row not yet expired — is
left unchanged, as the row-wise map equation states and the explicit
frame conjunct for unclaimed rows repeats. -/
theorem cleanup_sweep_C4 (db : DB) (now : Int) (hwf : WF db) :
    (cleanupExpiredEntries db now).1.rows =
      db.rows.map (fun r => if expiredB now r then softDelete now "expired" r else r)
    ∧ (cleanupExpiredEntries db now).1.nextId = db.nextId
    ∧ (cleanupExpiredEntries db now).2 = db.rows.countP (expiredB now)
    ∧ (∀ r ∈ db.rows, r.user_id = none → r ∈ (cleanupExpiredEntries db now).1.rows) := by
  rw [cleanupExpiredEntries_char db now hwf]
  refine ⟨rfl, rfl, rfl, ?_⟩
  intro r hr hnull
  have hex : expiredB now r = false := by
    apply decide_eq_false
    intro hcon
    exact hcon.2.1 hnull
  have : (if expiredB now r then softDelete now "expired" r else r) = r := by
    rw [hex, if_neg Bool.false_ne_true]
  rw [← this]
  exact List.mem_map_of_mem _ hr

/-- Witness for C4 at a concrete store holding an expired claimed row,
an unexpired claimed row and an expired unclaimed row. -/
theorem cleanup_sweep_C4_witness :
    WF wdbSweep
    ∧ ((cleanupExpiredEntries wdbSweep 250).1.rows =
        wdbSweep.rows.map (fun r => if expiredB 250 r then softDelete 250 "expired" r else r)
      ∧ (cleanupExpiredEntries wdbSweep 250).1.nextId = wdbSweep.nextId
      ∧ (cleanupExpiredEntries wdbSweep 250).2 = wdbSweep.rows.countP (expiredB 250)
      ∧ (∀ r ∈ wdbSweep.rows, r.user_id = none →
          r ∈ (cleanupExpiredEntries wdbSweep 250).1.rows)) := by
  have hwf : WF wdbSweep := by decide
  exact ⟨hwf, cleanup_sweep_C4 wdbSweep 250 hwf⟩

/-! ## C3 -/

/-- Refutation of C3 as stated: the lazy sweep run by the read paths
never touches rows with a null `user_id`, so a stored unclaimed entry
whose expiry instant is `100` is still returned by a read performed at
instant `100` (at/after its expiry), where the claim demands absence
for every stored entry. -/
theorem read_expiry_C3_counterexample :
    (({ userId := none, username := "Bob", date := "2025-11-15", departure := "HOT"
        arrival := "DOG", originalText := "imp", expiryTimestamp := 100 } : EntryView) ∈
      (storageGetAllEntries wdbNullExpired 100).2)
    ∧ wdbNullExpired.rows.map EntryRow.expiry_timestamp = [100] := by
  exact ⟨by decide, by decide⟩

/-- C3 (amended): on a wellformed store, for every stored active entry
with a non-null `userId` and expiry instant `T`, the entry appears in
every read (`getAllEntries`, and `getUserEntries` for its user)
performed strictly before `T` and is absent from every read performed
at or after `T` (the boundary instant counts as expired via
`now >= expiryTimestamp`); rows with a null `userId` are exempt from
the sweep, as the counterexample shows. -/
theorem read_expiry_C3 (db : DB) (now : Int) (r : EntryRow) (hwf : WF db)
    (hr : r ∈ db.rows) (hact : r.deleted_at = none) (hu : r.user_id ≠ none) :
    (now < r.expiry_timestamp →
      toView r ∈ (storageGetAllEntries db now).2
      ∧ ∀ uid, r.user_id = some uid → toView r ∈ (storageGetUserEntries db uid now).2)
    ∧ (r.expiry_timestamp ≤ now →
      toView r ∉ (storageGetAllEntries db now).2
      ∧ ∀ uid, toView r ∉ (storageGetUserEntries db uid now).2) := by
  have hchar := cleanupExpiredEntries_char db now hwf
  constructor
  · intro hlt
    have hex : expiredB now r = false := by
      apply decide_eq_false
      intro hcon
      have := hcon.2.2
      omega
    have hmem1 : r ∈ (cleanupExpiredEntries db now).1.rows := by
      rw [hchar]
      dsimp only
      have hid : (if expiredB now r then softDelete now "expired" r else r) = r := by
        rw [hex, if_neg Bool.false_ne_true]
      rw [← hid]
      exact List.mem_map_of_mem _ hr
    constructor
    · unfold storageGetAllEntries
      dsimp only
      rw [List.mem_insertionSort]
      apply List.mem_map_of_mem
      unfold dbGetAllEntries
      rw [List.mem_insertionSort]
      exact List.mem_filter.mpr ⟨hmem1, decide_eq_true hact⟩
    · intro uid huid
      unfold storageGetUserEntries
      dsimp only
      apply List.mem_map_of_mem
      unfold dbGetUserEntries
      rw [List.mem_insertionSort]
      exact List.mem_filter.mpr ⟨hmem1, decide_eq_true ⟨huid, hact⟩⟩
  · intro hge
    have habs : ∀ s, s ∈ (cleanupExpiredEntries db now).1.rows → s.deleted_at = none →
        toView s = toView r → False := by
      intro s hs hsact hv
      rw [hchar] at hs
      dsimp only at hs
      obtain ⟨s0, hs0, heq⟩ := List.mem_map.mp hs
      by_cases hex0 : expiredB now s0 = true
      · rw [if_pos hex0] at heq
        rw [← heq] at hsact
        simp [softDelete] at hsact
      · simp only [Bool.not_eq_true] at hex0
        rw [hex0, if_neg Bool.false_ne_true] at heq
        subst heq
        have hu0 : s0.user_id = r.user_id := congrArg EntryView.userId hv
        have he0 : s0.expiry_timestamp = r.expiry_timestamp :=
          congrArg EntryView.expiryTimestamp hv
        have : expiredB now s0 = true := by
          simp only [expiredB, decide_eq_true_eq]
          refine ⟨hsact, ?_, ?_⟩
          · rw [hu0]
            exact hu
          · rw [he0]
            omega
        rw [this] at hex0
        cases hex0
    constructor
    · intro hmem
      unfold storageGetAllEntries at hmem
      dsimp only at hmem
      rw [List.mem_insertionSort] at hmem
      obtain ⟨s, hsmem, hveq⟩ := List.mem_map.mp hmem
      unfold dbGetAllEntries at hsmem
      rw [List.mem_insertionSort] at hsmem
      have hf := List.mem_filter.mp hsmem
      exact habs s hf.1 (of_decide_eq_true hf.2) hveq
    · intro uid hmem
      unfold storageGetUserEntries at hmem
      dsimp only at hmem
      obtain ⟨s, hsmem, hveq⟩ := List.mem_map.mp hmem
      unfold dbGetUserEntries at hsmem
      rw [List.mem_insertionSort] at hsmem
      have hf := List.mem_filter.mp hsmem
      exact habs s hf.1 (of_decide_eq_true hf.2).2 hveq

/-- Witness for C3 (amended) at the concrete store `wdbSweep`: its
first row (user 7, expiry 100) is read back at `now = 50` and gone at
`now = 100`. -/
theorem read_expiry_C3_witness :
    WF wdbSweep
    ∧ (50 : Int) < 100
    ∧ ((100 : Int) ≤ 100)
    ∧ toView wdbSweepRow1 ∈ (storageGetAllEntries wdbSweep 50).2
    ∧ toView wdbSweepRow1 ∉ (storageGetAllEntries wdbSweep 100).2 := by
  have hwf : WF wdbSweep := by decide
  have hr : wdbSweepRow1 ∈ wdbSweep.rows := by decide
  refine ⟨hwf, by decide, by decide, ?_, ?_⟩
  · exact ((read_expiry_C3 wdbSweep 50 _ hwf hr rfl (by decide)).1 (by decide)).1
  · exact ((read_expiry_C3 wdbSweep 100 _ hwf hr rfl (by decide)).2 (by decide)).1

/-! ## C9 -/

/-- Refutation of C9 as stated: in a store where user 7 owns an active
`(2025-11-15, BER, IST)` row and one unclaimed imported row matches the
username `ALICE` case-insensitively for the same tuple, claiming would
violate the partial unique index, so the UPDATE fails wholesale: the
call returns 0 and leaves the matching row unclaimed, although the
claim demands that exactly that row be claimed. -/
theorem claim_imports_C9_counterexample :
    wdbClaimClash.rows.countP (claimMatches "ALICE") = 1
    ∧ matchUserToImportedEntries wdbClaimClash 7 "ALICE" = (wdbClaimClash, 0) := by
  exact ⟨by decide, by decide⟩

/-- C9 (amended): provided claiming does not collide with the partial
unique index, `matchUserToImportedEntries` sets `userId` on exactly the
active rows with a null `userId` and a case-insensitive username match
and returns their number; when claiming would collide (two matching
unclaimed rows sharing a tuple, or an existing active row of the user
with the same tuple) it changes nothing and returns 0.  It is invoked
on every authenticated interaction: at the start of `handleMessage`,
after the guards pass and before command dispatch, so the dispatched
command always sees the claimed store. -/
theorem claim_imports_C9 :
    (∀ (db : DB) (uid : Int) (un : String),
        uniqueIndexOk (claimUpdate db uid un) →
          matchUserToImportedEntries db uid un =
            ({ db with rows := claimUpdate db uid un }, db.rows.countP (claimMatches un)))
    ∧ (∀ (db : DB) (uid : Int) (un : String),
        ¬ uniqueIndexOk (claimUpdate db uid un) →
          matchUserToImportedEntries db uid un = (db, 0))
    ∧ (∀ (db : DB) (t : String) (fromId : Int) (un : String),
        jsTrim t ≠ "" → jsTrim un ≠ "" →
          handleMessage db (some t) fromId (some un) true true =
            ((matchUserToImportedEntries db fromId un).1, some (dispatchOf (jsTrim t)))) := by
  refine ⟨?_, ?_, ?_⟩
  · intro db uid un h
    unfold matchUserToImportedEntries
    rw [if_pos h]
  · intro db uid un h
    unfold matchUserToImportedEntries
    rw [if_neg h]
  · intro db t fromId un ht hun
    unfold handleMessage
    dsimp only
    rw [if_neg ht, if_neg hun, if_pos rfl, if_pos rfl]

/-- Witness for C9 at concrete stores: a collision-free claim, the
colliding claim, and an authenticated `/list` interaction. -/
theorem claim_imports_C9_witness :
    uniqueIndexOk (claimUpdate wdbNullExpired 5 "bob")
    ∧ matchUserToImportedEntries wdbNullExpired 5 "bob" =
        ({ wdbNullExpired with rows := claimUpdate wdbNullExpired 5 "bob" },
         wdbNullExpired.rows.countP (claimMatches "bob"))
    ∧ ¬ uniqueIndexOk (claimUpdate wdbClaimClash 7 "ALICE")
    ∧ matchUserToImportedEntries wdbClaimClash 7 "ALICE" = (wdbClaimClash, 0)
    ∧ handleMessage wdbNullExpired (some "/list") 5 (some "bob") true true =
        ((matchUserToImportedEntries wdbNullExpired 5 "bob").1,
         some (dispatchOf (jsTrim "/list"))) := by
  have h1 : uniqueIndexOk (claimUpdate wdbNullExpired 5 "bob") := by decide
  have h2 : ¬ uniqueIndexOk (claimUpdate wdbClaimClash 7 "ALICE") := by decide
  refine ⟨h1, claim_imports_C9.1 wdbNullExpired 5 "bob" h1, h2,
    claim_imports_C9.2.1 wdbClaimClash 7 "ALICE" h2,
    claim_imports_C9.2.2 wdbNullExpired "/list" 5 "bob" (by decide) (by decide)⟩

end Obcmap
